import Mathlib

/-!
# ip-wrapper: validators and facades

A shallow embedding of `src/utils.js`, `src/addresses.js`, `src/link.js` and
`src/neighbors.js`.

JavaScript values are restricted to the primitives the functions are called
with (undefined, null, booleans, numbers, strings).  A finite number is kept
by a decimal `m × 10^e`.  A number the caller passes is kept by the digits
`Number::toString` writes it with, the fewest that round to it (1500 by
`⟨1500, 0⟩`, 0.1 by `⟨1, -1⟩`); the program compares such a number with 0
only, and the number and its decimal lie on the same side of 0.
`StringToNumber` and `parseInt` round the value of the text to the nearest
double (`roundRatio`) and return the decimal equal to it: a value half way
between two doubles goes to the one with the even significand, a value up to
half the least positive double goes to 0, and a value from `2^1024 - 2^970` on
goes to Infinity.  The sign of zero is not kept: comparison, `ToBoolean` and
`ToString`, which are what the program applies to a number, do not tell `-0`
from `+0`.  Strings are Lean strings, read as lists of characters.
-/

namespace IpWrapper

/-! ## Values -/

/-- The finite number `m × 10^e`. -/
structure Dec where
  m : Int
  e : Int
deriving Repr, DecidableEq

/-- A JavaScript number: NaN, an infinity, or a finite decimal. -/
inductive JSNumber where
  | nan
  | posInf
  | negInf
  | fin (d : Dec)
deriving Repr, DecidableEq

/-- A primitive JavaScript value. -/
inductive JSValue where
  | undefined
  | null
  | bool (b : Bool)
  | number (n : JSNumber)
  | string (s : String)
deriving Repr, DecidableEq

/-- The kind of a thrown or rejected error object. -/
inductive ErrorKind where
  | error
  | typeError
deriving Repr, DecidableEq

/-- An error object: `new Error(message)` or an engine-raised `TypeError`. -/
structure JSError where
  kind : ErrorKind
  message : String
deriving Repr, DecidableEq

/-- The number literal `n` of the source text. -/
def JSNumber.ofNat (n : Nat) : JSNumber := .fin ⟨n, 0⟩

/-- Whether `a.m × 10^a.e < b.m × 10^b.e`, both scaled to the smaller exponent. -/
def Dec.lt (a b : Dec) : Bool :=
  let k := min a.e b.e
  decide (a.m * 10 ^ (a.e - k).toNat < b.m * 10 ^ (b.e - k).toNat)

/-- The abstract relational comparison `a < b` on numbers; `none` is the
`undefined` the language returns when an operand is NaN. -/
def JSNumber.lt : JSNumber → JSNumber → Option Bool
  | .nan, _ => none
  | _, .nan => none
  | .posInf, _ => some false
  | _, .posInf => some true
  | _, .negInf => some false
  | .negInf, _ => some true
  | .fin a, .fin b => some (a.lt b)

/-- The operator `a > b` on numbers. -/
def JSNumber.gt (a b : JSNumber) : Bool := (JSNumber.lt b a).getD false

/-- The operator `a >= b` on numbers. -/
def JSNumber.ge (a b : JSNumber) : Bool :=
  match JSNumber.lt a b with
  | none => false
  | some r => !r

/-- The operator `a <= b` on numbers. -/
def JSNumber.le (a b : JSNumber) : Bool :=
  match JSNumber.lt b a with
  | none => false
  | some r => !r

/-- The global function `isNaN` on a number. -/
def JSNumber.isNaN : JSNumber → Bool
  | .nan => true
  | _ => false

/-! ## Characters and digits -/

/-- The characters `StrWhiteSpaceChar` covers: white space and line terminators. -/
def isWhiteSpace (c : Char) : Bool :=
  let n := c.toNat
  n = 0x09 || n = 0x0A || n = 0x0B || n = 0x0C || n = 0x0D || n = 0x20 || n = 0xA0 ||
  n = 0x1680 || (0x2000 ≤ n && n ≤ 0x200A) || n = 0x2028 || n = 0x2029 || n = 0x202F ||
  n = 0x205F || n = 0x3000 || n = 0xFEFF

/-- The value of a character read as a digit in a radix up to 36. -/
def digitVal (c : Char) : Option Nat :=
  let n := c.toNat
  if 48 ≤ n ∧ n ≤ 57 then some (n - 48)
  else if 97 ≤ n ∧ n ≤ 122 then some (n - 87)
  else if 65 ≤ n ∧ n ≤ 90 then some (n - 55)
  else none

/-- Whether `c` is a digit of radix `r`. -/
def isRadixDigit (r : Nat) (c : Char) : Bool :=
  match digitVal c with
  | some d => decide (d < r)
  | none => false

/-- The number a digit string denotes in radix `r`. -/
def radixValue (r : Nat) (ds : List Char) : Nat :=
  ds.foldl (fun acc c => acc * r + (digitVal c).getD 0) 0

/-- Removes leading white space. -/
def trimStart (s : List Char) : List Char := s.dropWhile isWhiteSpace

/-- Removes leading and trailing white space (`String.prototype.trim`). -/
def trim (s : List Char) : List Char :=
  ((trimStart s).reverse.dropWhile isWhiteSpace).reverse

/-! ## Number to string -/

/-- The decimal digits of a natural number, most significant first. -/
def natDigits (n : Nat) : List Char := Nat.toDigits 10 n

/-- Drops the zeros that end a digit string, keeping its first digit. -/
def stripTrailingZeros : List Char → List Char
  | [] => []
  | c :: cs => c :: (cs.reverse.dropWhile (fun d => d == '0')).reverse

/-- `Number::toString` for the positive number `m × 10^e`: with `s` the `k`
significant digits and `n` the position of the decimal point, plain digits when
`k ≤ n ≤ 21`, a decimal point inside when `0 < n ≤ 21`, leading `0.` when
`-6 < n ≤ 0`, and exponential notation otherwise. -/
def posToString (m : Nat) (e : Int) : List Char :=
  let ds := natDigits m
  let s := stripTrailingZeros ds
  let k : Int := s.length
  let n : Int := ds.length + e
  if k ≤ n ∧ n ≤ 21 then s ++ List.replicate (n - k).toNat '0'
  else if 0 < n ∧ n ≤ 21 then s.take n.toNat ++ '.' :: s.drop n.toNat
  else if -6 < n ∧ n ≤ 0 then '0' :: '.' :: (List.replicate (-n).toNat '0' ++ s)
  else
    let x := n - 1
    let ex := (if x < 0 then '-' else '+') :: natDigits x.natAbs
    match s with
    | [] => []
    | [c] => c :: 'e' :: ex
    | c :: cs => c :: '.' :: (cs ++ 'e' :: ex)

/-- `Number::toString` in radix 10. -/
def numberToString : JSNumber → List Char
  | .nan => "NaN".toList
  | .posInf => "Infinity".toList
  | .negInf => "-Infinity".toList
  | .fin d =>
    if d.m = 0 then ['0']
    else if d.m < 0 then '-' :: posToString d.m.natAbs d.e
    else posToString d.m.natAbs d.e

/-- The abstract operation `ToString` on primitive values. -/
def JSValue.toStr : JSValue → String
  | .undefined => "undefined"
  | .null => "null"
  | .bool true => "true"
  | .bool false => "false"
  | .number n => String.mk (numberToString n)
  | .string s => s

/-- The abstract operation `ToBoolean`. -/
def JSValue.truthy : JSValue → Bool
  | .undefined => false
  | .null => false
  | .bool b => b
  | .number .nan => false
  | .number (.fin d) => decide (d.m ≠ 0)
  | .number _ => true
  | .string s => decide (s.data ≠ [])

/-! ## String to number -/

/-- Whether `c` is one of `0`..`9`. -/
def isDecDigit (c : Char) : Bool := isRadixDigit 10 c

/-! ### Rounding to a double

A finite double is `k × 2^q` with `k ≤ 2^53` and `-1074 ≤ q`, below `2^1024`.
The Number value for a real `x` is the double nearest to `x`, the one with the
even `k` when two are equally near, and Infinity when that is `2^1024`. -/

/-- The count of binary digits of `n`, read with at most `fuel` halvings. -/
def bitLengthAux : Nat → Nat → Nat
  | 0, _ => 0
  | fuel + 1, n => if n = 0 then 0 else bitLengthAux fuel (n / 2) + 1

/-- The count of binary digits of `n`: the least `s` with `n < 2^s`. -/
def bitLength (n : Nat) : Nat := bitLengthAux n n

/-- The integer nearest to `a / b`, the even one when two are equally near. -/
def divRoundHalfEven (a b : Nat) : Nat :=
  let k := a / b
  let r := a % b
  if 2 * r < b then k
  else if b < 2 * r then k + 1
  else if k % 2 = 0 then k else k + 1

/-- The double `k × 2^q` written as a decimal: `2^q = 5^(-q) × 10^q` when `q < 0`. -/
def Dec.ofBinary (k : Nat) (q : Int) : Dec :=
  if 0 ≤ q then ⟨k * 2 ^ q.toNat, 0⟩ else ⟨k * 5 ^ (-q).toNat, q⟩

/-- The binary exponent of the rational `a / b`, `a > 0` and `b > 0`: the `e` with
`2^e ≤ a / b < 2^(e+1)`.  It is the count of binary digits of `a` less that of
`b`, or one less. -/
def binaryExponent (a b : Nat) : Int :=
  let e0 : Int := (bitLength a : Int) - bitLength b
  if b * 2 ^ e0.toNat ≤ a * 2 ^ (-e0).toNat then e0 else e0 - 1

/-- The Number value for the rational `a / b`, `b > 0`.  With `e` the binary
exponent of `a / b`, the doubles around `a / b` are the multiples of `2^q`,
`q = max (e - 52) (-1074)`; `a / b` is rounded to the nearest, `k × 2^q`.  A
result `k × 2^q ≥ 2^1024`, that is `bitLength k + q > 1024`, is Infinity. -/
def roundRatio (a b : Nat) : JSNumber :=
  let q : Int := max (binaryExponent a b - 52) (-1074)
  let k := divRoundHalfEven (a * 2 ^ (-q).toNat) (b * 2 ^ q.toNat)
  if 1024 < (bitLength k : Int) + q then .posInf else .fin (Dec.ofBinary k q)

/-- The Number value for the decimal `m × 10^e`. -/
def roundDecimal (m : Nat) (e : Int) : JSNumber :=
  roundRatio (m * 10 ^ e.toNat) (10 ^ (-e).toNat)

/-- `NonDecimalIntegerLiteral` after its prefix: one or more digits of the radix. -/
def nonDecimalLiteral (r : Nat) (ds : List Char) : JSNumber :=
  if ds ≠ [] ∧ ds.all (isRadixDigit r) = true then roundRatio (radixValue r ds) 1 else .nan

/-- `ExponentPart_opt` up to the end of the text: the exponent, or `none` when
the text is neither empty nor a well-formed exponent part. -/
def exponentPart : List Char → Option Int
  | [] => some 0
  | c :: r =>
    if c = 'e' ∨ c = 'E' then
      match r with
      | '+' :: ds =>
        if ds ≠ [] ∧ ds.all isDecDigit = true then some (radixValue 10 ds) else none
      | '-' :: ds =>
        if ds ≠ [] ∧ ds.all isDecDigit = true then some (-(radixValue 10 ds : Int)) else none
      | ds =>
        if ds ≠ [] ∧ ds.all isDecDigit = true then some (radixValue 10 ds) else none
    else none

/-- `StrUnsignedDecimalLiteral`: `Infinity`, or digits with an optional
fraction and exponent, at least one digit before or after the point; the value
of the digits is rounded to a double. -/
def strUnsignedDecimal (t : List Char) : JSNumber :=
  if t = "Infinity".toList then .posInf
  else
    let ip := t.takeWhile isDecDigit
    let r1 := t.dropWhile isDecDigit
    let fp := match r1 with
      | '.' :: r => r.takeWhile isDecDigit
      | _ => []
    let r2 := match r1 with
      | '.' :: r => r.dropWhile isDecDigit
      | _ => r1
    if ip = [] ∧ fp = [] then .nan
    else
      match exponentPart r2 with
      | none => .nan
      | some ex => roundDecimal (radixValue 10 (ip ++ fp)) (ex - fp.length)

/-- Unary minus on numbers. -/
def JSNumber.neg : JSNumber → JSNumber
  | .nan => .nan
  | .posInf => .negInf
  | .negInf => .posInf
  | .fin d => .fin ⟨-d.m, d.e⟩

/-- `StringToNumber`: the text is trimmed; empty text is 0; a `0x`, `0o` or `0b`
prefix starts an unsigned integer in that radix; anything else is a signed
decimal literal; text outside the grammar is NaN. -/
def stringToNumber (s : List Char) : JSNumber :=
  match trim s with
  | [] => .fin ⟨0, 0⟩
  | '0' :: 'x' :: r => nonDecimalLiteral 16 r
  | '0' :: 'X' :: r => nonDecimalLiteral 16 r
  | '0' :: 'o' :: r => nonDecimalLiteral 8 r
  | '0' :: 'O' :: r => nonDecimalLiteral 8 r
  | '0' :: 'b' :: r => nonDecimalLiteral 2 r
  | '0' :: 'B' :: r => nonDecimalLiteral 2 r
  | '+' :: r => strUnsignedDecimal r
  | '-' :: r => (strUnsignedDecimal r).neg
  | t => strUnsignedDecimal t

/-- The abstract operation `ToNumber` on primitive values. -/
def JSValue.toNumber : JSValue → JSNumber
  | .undefined => .nan
  | .null => .fin ⟨0, 0⟩
  | .bool true => .fin ⟨1, 0⟩
  | .bool false => .fin ⟨0, 0⟩
  | .number n => n
  | .string s => stringToNumber s.data

/-- The digits `parseInt` reads after the sign: with a `0x` or `0X` prefix the
longest run of hexadecimal digits after it, otherwise the longest run of
decimal digits; NaN when that run is empty, else the integer they denote,
rounded to a double. -/
def parseIntDigits : List Char → JSNumber
  | '0' :: 'x' :: r =>
    let z := r.takeWhile (isRadixDigit 16)
    if z = [] then .nan else roundRatio (radixValue 16 z) 1
  | '0' :: 'X' :: r =>
    let z := r.takeWhile (isRadixDigit 16)
    if z = [] then .nan else roundRatio (radixValue 16 z) 1
  | t =>
    let z := t.takeWhile (isRadixDigit 10)
    if z = [] then .nan else roundRatio (radixValue 10 z) 1

/-- The global function `parseInt(v)` with no radix argument: `ToString`, drop
leading white space, read a sign, then the digits. -/
def parseInt (v : JSValue) : JSNumber :=
  match trimStart v.toStr.data with
  | '-' :: r => (parseIntDigits r).neg
  | '+' :: r => parseIntDigits r
  | t => parseIntDigits t

/-- The operator `a && b` on values already evaluated. -/
def jsAnd (a b : JSValue) : JSValue := if a.truthy then b else a

/-- The operator `a || b` on values already evaluated. -/
def jsOr (a b : JSValue) : JSValue := if a.truthy then a else b

/-! ## Regular expressions -/

/-- The fragment of regular expressions the program and `net.isIP` use:
character classes, sequence, alternation, bounded repetition `{lo,hi}` and
the unbounded `{1,}`. -/
inductive Regex where
  | cls (p : Char → Bool)
  | seq (a b : Regex)
  | alt (a b : Regex)
  | rep (lo hi : Nat) (a : Regex)
  | many1 (a : Regex)

/-- Repetition of a matcher `f` between `lo` and `hi` times: the inputs left
after every admissible number of rounds. -/
def runRep (f : List Char → List (List Char)) : Nat → Nat → List Char → List (List Char)
  | 0, 0, s => [s]
  | _ + 1, 0, _ => []
  | 0, hi + 1, s => s :: (f s).flatMap (runRep f 0 hi)
  | lo + 1, hi + 1, s => (f s).flatMap (runRep f lo hi)

/-- Every way the expression matches at the start of the input, as the list of
inputs left over.  A round of `{1,}` consumes a character, so the input length
bounds the rounds. -/
def Regex.run : Regex → List Char → List (List Char)
  | .cls _, [] => []
  | .cls p, c :: cs => if p c then [cs] else []
  | .seq a b, s => (a.run s).flatMap b.run
  | .alt a b, s => a.run s ++ b.run s
  | .rep lo hi a, s => runRep a.run lo hi s
  | .many1 a, s => runRep a.run 1 s.length s

/-- `RegExp.prototype.test` for an expression anchored as `^...$` (no flags): some
match consumes the whole input. -/
def Regex.test (r : Regex) (s : List Char) : Bool :=
  (r.run s).any List.isEmpty

/-- The class `[lo-hi]`. -/
def inRange (lo hi : Char) (c : Char) : Bool := lo.toNat ≤ c.toNat && c.toNat ≤ hi.toNat

/-- The class that holds one character. -/
def Regex.chr (x : Char) : Regex := .cls (fun c => c == x)

/-- The class `\d`, that is `[0-9]`. -/
def Regex.digit : Regex := .cls (inRange '0' '9')

/-- The class `[0-9A-Fa-f]`. -/
def isHexDigit (c : Char) : Bool := inRange '0' '9' c || inRange 'A' 'F' c || inRange 'a' 'f' c

/-- The item `a?`. -/
def Regex.opt (a : Regex) : Regex := .rep 0 1 a

/-- The item `a{n}`. -/
def Regex.times (n : Nat) (a : Regex) : Regex := .rep n n a

/-! ## `net.isIP` of the Node.js standard library

The library is not part of the repository; `isIP` follows the expressions of
its `lib/internal/net.js`. -/

/-- `v4Seg = (?:25[0-5]|2[0-4]\d|1\d\d|[1-9]?\d)`. -/
def v4Seg : Regex :=
  .alt (.seq (.chr '2') (.seq (.chr '5') (.cls (inRange '0' '5'))))
  (.alt (.seq (.chr '2') (.seq (.cls (inRange '0' '4')) .digit))
  (.alt (.seq (.chr '1') (.seq .digit .digit))
    (.seq (.opt (.cls (inRange '1' '9'))) .digit)))

/-- `v4Str = (?:v4Seg\.){3}v4Seg`. -/
def v4Str : Regex := .seq (.times 3 (.seq v4Seg (.chr '.'))) v4Seg

/-- `v6Seg = (?:[0-9a-fA-F]{1,4})`. -/
def v6Seg : Regex := .rep 1 4 (.cls isHexDigit)

/-- `(?::v6Seg){lo,hi}`. -/
def colonSegs (lo hi : Nat) : Regex := .rep lo hi (.seq (.chr ':') v6Seg)

/-- `(?:(?::v6Seg){0,k}:v4Str|(?::v6Seg){1,j}|:)`, the tail of an address after
its leading `v6Seg:` groups. -/
def v6Tail (k j : Nat) : Regex :=
  .alt (.seq (colonSegs 0 k) (.seq (.chr ':') v4Str)) (.alt (colonSegs 1 j) (.chr ':'))

/-- The eight alternatives of `IPv6Reg`, before the zone suffix. -/
def v6Body : Regex :=
  .alt (.seq (.times 7 (.seq v6Seg (.chr ':'))) (.alt v6Seg (.chr ':')))
  (.alt (.seq (.times 6 (.seq v6Seg (.chr ':')))
      (.alt v4Str (.alt (.seq (.chr ':') v6Seg) (.chr ':'))))
  (.alt (.seq (.times 5 (.seq v6Seg (.chr ':')))
      (.alt (.seq (.chr ':') v4Str) (.alt (colonSegs 1 2) (.chr ':'))))
  (.alt (.seq (.times 4 (.seq v6Seg (.chr ':'))) (v6Tail 1 3))
  (.alt (.seq (.times 3 (.seq v6Seg (.chr ':'))) (v6Tail 2 4))
  (.alt (.seq (.times 2 (.seq v6Seg (.chr ':'))) (v6Tail 3 5))
  (.alt (.seq (.times 1 (.seq v6Seg (.chr ':'))) (v6Tail 4 6))
    (.seq (.chr ':') (v6Tail 5 7))))))))

/-- The class `[0-9a-zA-Z-.:]` of a zone identifier. -/
def isZoneChar (c : Char) : Bool :=
  inRange '0' '9' c || inRange 'a' 'z' c || inRange 'A' 'Z' c || c == '-' || c == '.' || c == ':'

/-- `IPv6Reg`: the body, then `(?:%[0-9a-zA-Z-.:]{1,})?`. -/
def IPv6Reg : Regex := .seq v6Body (.opt (.seq (.chr '%') (.many1 (.cls isZoneChar))))

/-- `IPv4Reg = ^v4Str$`. -/
def IPv4Reg : Regex := v4Str

/-- `net.isIP`: 4 for an IPv4 literal, 6 for an IPv6 literal, 0 otherwise. -/
def isIP (s : String) : Nat :=
  if IPv4Reg.test s.data then 4 else if IPv6Reg.test s.data then 6 else 0

/-! ## `src/utils.js` -/

/-- `String.prototype.split` with a one-character separator. -/
def splitOn (sep : Char) : List Char → List (List Char)
  | [] => [[]]
  | c :: cs =>
    if c = sep then [] :: splitOn sep cs
    else
      match splitOn sep cs with
      | [] => [[c]]
      | p :: ps => (c :: p) :: ps

/-- The element `parts[i]` of an array of strings, `undefined` past its end. -/
def partAt (parts : List (List Char)) (i : Nat) : JSValue :=
  match parts.get? i with
  | some p => .string (String.mk p)
  | none => .undefined

/-- The body of `isValidCIDR` once `cidr.split('/')` has returned `parts`. -/
def cidrCheck (parts : List (List Char)) : JSValue :=
  let ip := (partAt parts 0).toStr
  let subnet := partAt parts 1
  jsAnd (.number (JSNumber.ofNat (isIP ip)))
    (jsAnd (.bool (decide (subnet ≠ .undefined)))
      (jsAnd (.bool (!(parseInt subnet).isNaN))
        (jsOr
          (jsAnd (.bool (decide (isIP ip = 4)))
            (jsAnd (.bool (subnet.toNumber.ge (JSNumber.ofNat 0)))
              (.bool (subnet.toNumber.le (JSNumber.ofNat 32)))))
          (jsAnd (.bool (decide (isIP ip = 6)))
            (jsAnd (.bool (subnet.toNumber.ge (JSNumber.ofNat 0)))
              (.bool (subnet.toNumber.le (JSNumber.ofNat 128))))))))

/-- `isValidCIDR(cidr)`: a string is split on `/`; `undefined` and `null` have no
property `split`, and on other primitives `split` is not a function, so the
call raises a `TypeError`. -/
def isValidCIDR : JSValue → Except JSError JSValue
  | .string s => .ok (cidrCheck (splitOn '/' s.data))
  | .undefined =>
    .error ⟨.typeError, "Cannot read properties of undefined (reading 'split')"⟩
  | .null => .error ⟨.typeError, "Cannot read properties of null (reading 'split')"⟩
  | _ => .error ⟨.typeError, "cidr.split is not a function"⟩

/-- `isValidMTU(mtu)`. -/
def isValidMTU (mtu : JSValue) : JSValue :=
  jsAnd (.bool (!(parseInt mtu).isNaN)) (.bool (mtu.toNumber.gt (JSNumber.ofNat 0)))

/-- `macRegex = /^([0-9A-Fa-f]{2}[:-]){5}([0-9A-Fa-f]{2})$/`. -/
def macRegex : Regex :=
  .seq (.times 5 (.seq (.times 2 (.cls isHexDigit)) (.cls (fun c => c == ':' || c == '-'))))
    (.times 2 (.cls isHexDigit))

/-- `isValidMACAddress(macAddress)`: `test` converts its argument to a string. -/
def isValidMACAddress (macAddress : JSValue) : JSValue :=
  .bool (macRegex.test macAddress.toStr.data)

/-! ## Promises and the external tool -/

/-- What the callback of `child_process.exec` receives: the execution error
(`null` on a zero exit status), standard output and standard error. -/
structure ExecResult where
  error : Option JSError
  stdout : String
  stderr : String

/-- The external tool: what it answers to each command line. -/
abbrev Tool := String → ExecResult

/-- The state of a promise. -/
inductive PromiseState where
  | pending
  | resolved (v : JSValue)
  | rejected (e : JSError)
deriving Repr, DecidableEq

/-- `resolve(v)`: settles a pending promise, and has no effect on a settled one. -/
def PromiseState.resolve (p : PromiseState) (v : JSValue) : PromiseState :=
  match p with
  | .pending => .resolved v
  | _ => p

/-- `reject(e)`: settles a pending promise, and has no effect on a settled one. -/
def PromiseState.reject (p : PromiseState) (e : JSError) : PromiseState :=
  match p with
  | .pending => .rejected e
  | _ => p

/-- A finished call of a facade operation: the command lines handed to `exec`,
in order, and the promise after the callback has run. -/
structure Outcome where
  commands : List String
  promise : PromiseState
deriving Repr, DecidableEq

/-- `new Error(message)`. -/
def mkError (message : String) : JSError := ⟨.error, message⟩

/-- `String.prototype.includes`. -/
def includes (s sub : String) : Bool :=
  s.data.tails.any (fun t => sub.data.isPrefixOf t)

/-! ## `src/addresses.js` -/

namespace Addresses

/-- `add(interfaceName, ipCidr)`. -/
def add (tool : Tool) (interfaceName ipCidr : JSValue) : Outcome :=
  match isValidCIDR ipCidr with
  | .error e => ⟨[], PromiseState.pending.reject e⟩
  | .ok valid =>
    if !valid.truthy then
      ⟨[], PromiseState.pending.reject (mkError ("Invalid IP CIDR: " ++ ipCidr.toStr))⟩
    else
      let command := "ip address add " ++ ipCidr.toStr ++ " dev " ++ interfaceName.toStr
      let r := tool command
      if (JSValue.string r.stderr).truthy then
        if includes r.stderr "Cannot find device" then
          ⟨[command], PromiseState.pending.reject
            (mkError ("Cannot find device " ++ interfaceName.toStr))⟩
        else if includes r.stderr "File exists" then
          ⟨[command], PromiseState.pending.reject
            (mkError "IP Address already exists on interface")⟩
        else
          ⟨[command], PromiseState.pending.reject
            (mkError ("Error adding IP address: " ++ r.stderr))⟩
      else ⟨[command], PromiseState.pending.resolve .undefined⟩

/-- `remove(interfaceName, ipCidr)`. -/
def remove (tool : Tool) (interfaceName ipCidr : JSValue) : Outcome :=
  match isValidCIDR ipCidr with
  | .error e => ⟨[], PromiseState.pending.reject e⟩
  | .ok valid =>
    if !valid.truthy then
      ⟨[], PromiseState.pending.reject (mkError ("Invalid IP CIDR: " ++ ipCidr.toStr))⟩
    else
      let command := "ip address del " ++ ipCidr.toStr ++ " dev " ++ interfaceName.toStr
      let r := tool command
      if (JSValue.string r.stderr).truthy then
        if includes r.stderr "Cannot find device" then
          ⟨[command], PromiseState.pending.reject
            (mkError ("Cannot find device " ++ interfaceName.toStr))⟩
        else if includes r.stderr "Cannot assign requested address" then
          ⟨[command], PromiseState.pending.reject
            (mkError "IP Address does not exist on interface")⟩
        else
          ⟨[command], PromiseState.pending.reject
            (mkError ("Error removing IP address: " ++ r.stderr))⟩
      else ⟨[command], PromiseState.pending.resolve .undefined⟩

end Addresses

/-! ## `src/link.js` -/

namespace Link

/-- The callback the link setters pass to `exec`: on a diagnostic it rejects,
does not return, and goes on to `resolve()`. -/
def settle (p : PromiseState) (r : ExecResult) (device : JSValue) (failure : String) :
    PromiseState :=
  let p1 :=
    if (JSValue.string r.stderr).truthy then
      if includes r.stderr "Cannot find device" then
        p.reject (mkError ("Cannot find device " ++ device.toStr))
      else p.reject (mkError (failure ++ r.stderr))
    else p
  p1.resolve .undefined

/-- `setState(interfaceName, state)`. -/
def setState (tool : Tool) (interfaceName state : JSValue) : Outcome :=
  if state ≠ .string "up" ∧ state ≠ .string "down" then
    ⟨[], PromiseState.pending.reject (mkError ("Invalid state: " ++ state.toStr))⟩
  else
    let command := "ip link set " ++ interfaceName.toStr ++ " " ++ state.toStr
    ⟨[command], settle .pending (tool command) interfaceName "Error setting link state: "⟩

/-- `setMTU(interfaceName, mtuValue)`. -/
def setMTU (tool : Tool) (interfaceName mtuValue : JSValue) : Outcome :=
  if !(isValidMTU mtuValue).truthy then
    ⟨[], PromiseState.pending.reject (mkError ("Invalid MTU value: " ++ mtuValue.toStr))⟩
  else
    let command := "ip link set " ++ interfaceName.toStr ++ " mtu " ++ mtuValue.toStr
    ⟨[command], settle .pending (tool command) interfaceName "Error setting MTU: "⟩

/-- `setMac(interfaceName, newMacAddress)`: the rejection of an invalid address
is not followed by `return`, so `exec` is called all the same. -/
def setMac (tool : Tool) (interfaceName newMacAddress : JSValue) : Outcome :=
  let p :=
    if !(isValidMACAddress newMacAddress).truthy then
      PromiseState.pending.reject (mkError ("Invalid Mac Address " ++ newMacAddress.toStr))
    else PromiseState.pending
  let command :=
    "ip link set dev " ++ interfaceName.toStr ++ " address " ++ newMacAddress.toStr
  ⟨[command], settle p (tool command) interfaceName "Error setting MAC address: "⟩

end Link

/-! ## `JSON.parse` -/

/-- A value `JSON.parse` returns.  The members of an object are kept in the order
of the text, a repeated key with each of its values, and a number by the decimal
its text denotes. -/
inductive Json where
  | null
  | bool (b : Bool)
  | number (d : Dec)
  | string (s : String)
  | array (items : List Json)
  | object (members : List (String × Json))

/-- The white space of the JSON grammar: tab, line feed, carriage return, space. -/
def isJsonWhiteSpace (c : Char) : Bool :=
  c.toNat = 0x09 || c.toNat = 0x0A || c.toNat = 0x0D || c.toNat = 0x20

/-- Skips JSON white space. -/
def skipJsonWhiteSpace (s : List Char) : List Char := s.dropWhile isJsonWhiteSpace

/-- The exponent of a JSON number and the text after it: `e` or `E`, an optional
sign, one or more digits; no exponent part is exponent 0. -/
def jsonExponent : List Char → Option (Int × List Char)
  | [] => some (0, [])
  | c :: r =>
    if c = 'e' ∨ c = 'E' then
      let body := match r with
        | '+' :: ds => ds
        | '-' :: ds => ds
        | ds => ds
      let neg := match r with
        | '-' :: _ => true
        | _ => false
      let ds := body.takeWhile isDecDigit
      if ds = [] then none
      else some (if neg then -(radixValue 10 ds : Int) else radixValue 10 ds,
        body.dropWhile isDecDigit)
    else some (0, c :: r)

/-- The fraction of a JSON number and the text after it: a point and one or more
digits, or nothing. -/
def jsonFraction : List Char → Option (List Char × List Char)
  | '.' :: r =>
    let fp := r.takeWhile isDecDigit
    if fp = [] then none else some (fp, r.dropWhile isDecDigit)
  | s => some ([], s)

/-- An unsigned JSON number and the text after it: `0` or a digit string with no
leading zero, then an optional fraction and exponent. -/
def jsonUnsigned (s : List Char) : Option (Dec × List Char) :=
  let ip := s.takeWhile isDecDigit
  if ip = [] ∨ (1 < ip.length ∧ ip.head? = some '0') then none
  else
    match jsonFraction (s.dropWhile isDecDigit) with
    | none => none
    | some (fp, r2) =>
      match jsonExponent r2 with
      | none => none
      | some (ex, r3) => some (⟨radixValue 10 (ip ++ fp), ex - fp.length⟩, r3)

/-- A JSON number, with its optional minus sign, and the text after it. -/
def jsonNumber : List Char → Option (Dec × List Char)
  | '-' :: r =>
    match jsonUnsigned r with
    | some (d, rest) => some (⟨-d.m, d.e⟩, rest)
    | none => none
  | s => jsonUnsigned s

/-- The character a one-letter escape of a JSON string stands for. -/
def jsonEscape (c : Char) : Option Char :=
  if c.toNat = 34 then some (Char.ofNat 34)
  else if c.toNat = 92 then some (Char.ofNat 92)
  else if c = '/' then some '/'
  else if c = 'b' then some (Char.ofNat 8)
  else if c = 'f' then some (Char.ofNat 12)
  else if c = 'n' then some (Char.ofNat 10)
  else if c = 'r' then some (Char.ofNat 13)
  else if c = 't' then some (Char.ofNat 9)
  else none

/-- The rest of a JSON string after its opening quote, up to the closing quote:
the characters read (last first in `acc`) and the text after the string.  A
control character, an unknown escape and a missing closing quote are errors.  A
`\uXXXX` escape is read as the character with that code. -/
def jsonString : List Char → List Char → Option (String × List Char)
  | [], _ => none
  | c :: r, acc =>
    if c.toNat = 34 then some (String.mk acc.reverse, r)
    else if c.toNat = 92 then
      match r with
      | [] => none
      | 'u' :: h1 :: h2 :: h3 :: h4 :: r' =>
        if [h1, h2, h3, h4].all (isRadixDigit 16) = true then
          jsonString r' (Char.ofNat (radixValue 16 [h1, h2, h3, h4]) :: acc)
        else none
      | e :: r' =>
        match jsonEscape e with
        | some x => jsonString r' (x :: acc)
        | none => none
    else if c.toNat < 32 then none
    else jsonString r (c :: acc)

mutual

/-- A JSON value at the start of the text, after white space, and the text after
it.  The fuel bounds the nesting and the number of elements. -/
def jsonValue : Nat → List Char → Option (Json × List Char)
  | 0, _ => none
  | fuel + 1, s =>
    match skipJsonWhiteSpace s with
    | 'n' :: 'u' :: 'l' :: 'l' :: r => some (.null, r)
    | 't' :: 'r' :: 'u' :: 'e' :: r => some (.bool true, r)
    | 'f' :: 'a' :: 'l' :: 's' :: 'e' :: r => some (.bool false, r)
    | c :: r =>
      if c.toNat = 34 then
        match jsonString r [] with
        | some (str, rest) => some (.string str, rest)
        | none => none
      else if c = '[' then
        match skipJsonWhiteSpace r with
        | ']' :: rest => some (.array [], rest)
        | _ => jsonElements fuel r []
      else if c.toNat = 123 then
        match skipJsonWhiteSpace r with
        | [] => none
        | d :: rest => if d.toNat = 125 then some (.object [], rest) else jsonMembers fuel r []
      else
        match jsonNumber (c :: r) with
        | some (d, rest) => some (.number d, rest)
        | none => none
    | [] => none

/-- The elements of an array after `[` or `,`, up to the closing `]`. -/
def jsonElements : Nat → List Char → List Json → Option (Json × List Char)
  | 0, _, _ => none
  | fuel + 1, s, acc =>
    match jsonValue fuel s with
    | none => none
    | some (v, r) =>
      match skipJsonWhiteSpace r with
      | ',' :: rest => jsonElements fuel rest (acc ++ [v])
      | ']' :: rest => some (.array (acc ++ [v]), rest)
      | _ => none

/-- The members of an object after its opening brace or `,`, up to the closing
brace: a string, `:`, a value. -/
def jsonMembers : Nat → List Char → List (String × Json) → Option (Json × List Char)
  | 0, _, _ => none
  | fuel + 1, s, acc =>
    match skipJsonWhiteSpace s with
    | [] => none
    | q :: r0 =>
      if q.toNat = 34 then
        match jsonString r0 [] with
        | none => none
        | some (key, r1) =>
          match skipJsonWhiteSpace r1 with
          | ':' :: r2 =>
            match jsonValue fuel r2 with
            | none => none
            | some (v, r3) =>
              match skipJsonWhiteSpace r3 with
              | [] => none
              | d :: rest =>
                if d = ',' then jsonMembers fuel rest (acc ++ [(key, v)])
                else if d.toNat = 125 then some (.object (acc ++ [(key, v)]), rest)
                else none
          | _ => none
      else none

end

/-- `JSON.parse(text)`: one value with white space around it and nothing else.
A `SyntaxError` is returned by its message; the engine words it by the place of
the error, which is not modelled. -/
def jsonParse (text : String) : Except String Json :=
  match jsonValue (2 * text.data.length + 2) text.data with
  | some (v, rest) =>
    if skipJsonWhiteSpace rest = [] then .ok v else .error "Unexpected token in JSON"
  | none => .error "Unexpected token in JSON"

/-- The state of the promise of a query, which resolves with parsed JSON. -/
inductive QueryPromise where
  | pending
  | resolved (v : Json)
  | rejected (e : JSError)

/-- A finished call of a query: the command lines handed to `exec`, in order, and
the promise after the callback has run. -/
structure QueryOutcome where
  commands : List String
  promise : QueryPromise

/-- `String.prototype.trim` on a value: a string is trimmed; other primitives
have no method `trim`, so the call raises a `TypeError`. -/
def callTrim (name : String) : JSValue → Except JSError String
  | .string s => .ok (String.mk (trim s.data))
  | .undefined =>
    .error ⟨.typeError, "Cannot read properties of undefined (reading 'trim')"⟩
  | .null => .error ⟨.typeError, "Cannot read properties of null (reading 'trim')"⟩
  | _ => .error ⟨.typeError, name ++ ".trim is not a function"⟩

/-- A parameter with a default value: `undefined` stands for an omitted argument
and takes the default. -/
def withDefault (v dflt : JSValue) : JSValue := if v = .undefined then dflt else v

namespace Addresses

/-- `show(interfaceName = '')`. -/
def «show» (tool : Tool) (interfaceName : JSValue) : QueryOutcome :=
  let interfaceName := withDefault interfaceName (.string "")
  let command : Except JSError String :=
    if interfaceName.truthy then
      match callTrim "interfaceName" interfaceName with
      | .ok t => .ok ("ip -j address show " ++ t)
      | .error e => .error e
    else .ok "ip -j address"
  match command with
  | .error e => ⟨[], .rejected e⟩
  | .ok command =>
    let r := tool command
    if (JSValue.string r.stderr).truthy then
      if includes r.stderr "Cannot find device" then
        ⟨[command], .rejected (mkError ("Cannot find device " ++ interfaceName.toStr))⟩
      else
        ⟨[command], .rejected (mkError ("Error retrieving network interfaces: " ++ r.stderr))⟩
    else
      match jsonParse r.stdout with
      | .ok result => ⟨[command], .resolved result⟩
      | .error message =>
        ⟨[command], .rejected (mkError ("Error parsing network interfaces: " ++ message))⟩

/-- `flush(interfaceName)`. -/
def flush (tool : Tool) (interfaceName : JSValue) : Outcome :=
  let command := "ip address flush dev " ++ interfaceName.toStr
  let r := tool command
  if (JSValue.string r.stderr).truthy then
    if includes r.stderr "Cannot find device" then
      ⟨[command], PromiseState.pending.reject
        (mkError ("Cannot find device " ++ interfaceName.toStr))⟩
    else
      ⟨[command], PromiseState.pending.reject
        (mkError ("Error flushing IP addresses: " ++ r.stderr))⟩
  else ⟨[command], PromiseState.pending.resolve .undefined⟩

end Addresses

namespace Link

/-- `rename(oldInterfaceName, newInterfaceName)`. -/
def rename (tool : Tool) (oldInterfaceName newInterfaceName : JSValue) : Outcome :=
  let command :=
    "ip link set dev " ++ oldInterfaceName.toStr ++ " name " ++ newInterfaceName.toStr
  ⟨[command], settle .pending (tool command) oldInterfaceName "Error renaming interface: "⟩

end Link

/-! ## `src/neighbors.js` -/

namespace Neighbors

/-- `isValidIP` as line 2 binds it, `const { isValidIP, isValidMACAddress } =
require('./utils')`: `utils.js` exports `isValidCIDR`, `isValidMTU` and
`isValidMACAddress` only, so the name is bound to `undefined` and a call of it
raises a `TypeError`. -/
def isValidIP (_ipAddress : JSValue) : Except JSError JSValue :=
  .error ⟨.typeError, "isValidIP is not a function"⟩

/-- `validTypes`. -/
def validTypes : List String :=
  ["permanent", "noarp", "reachable", "stale", "probe", "delay", "failed"]

/-- `validTypes.includes(type)`: only a string equals an element of the array. -/
def includesType : JSValue → Bool
  | .string t => validTypes.contains t
  | _ => false

/-- The message of the first check of `add` and `update`. -/
def invalidParameters : String :=
  "Invalid parameters: Ensure all required parameters are provided and 'type' is one of the valid options."

/-- The callback the neighbor operations pass to `exec`: it rejects on an
execution error or a diagnostic, with the diagnostic when there is one and the
error's message otherwise, and resolves when there is neither. -/
def settle (r : ExecResult) (failure : String) : PromiseState :=
  match r.error, (JSValue.string r.stderr).truthy with
  | _, true => PromiseState.pending.reject (mkError (failure ++ r.stderr))
  | some e, false => PromiseState.pending.reject (mkError (failure ++ e.message))
  | none, false => PromiseState.pending.resolve .undefined

/-- The body `add` and `update` share, with `validIP` the function the name
`isValidIP` is bound to: the checks, then the command `ip neigh <verb> ...`. -/
def mutate (validIP : JSValue → Except JSError JSValue) (verb failure : String) (tool : Tool)
    (ipAddress macAddress interfaceName type : JSValue) : Outcome :=
  let type := withDefault type (.string "permanent")
  if !ipAddress.truthy || !macAddress.truthy || !interfaceName.truthy || !includesType type then
    ⟨[], PromiseState.pending.reject (mkError invalidParameters)⟩
  else
    match validIP ipAddress with
    | .error e => ⟨[], PromiseState.pending.reject e⟩
    | .ok valid =>
      if !valid.truthy then
        ⟨[], PromiseState.pending.reject (mkError ("Invalid IP address: " ++ ipAddress.toStr))⟩
      else if !(isValidMACAddress macAddress).truthy then
        ⟨[], PromiseState.pending.reject
          (mkError ("Invalid MAC address: " ++ macAddress.toStr))⟩
      else
        let command := "ip neigh " ++ verb ++ " " ++ ipAddress.toStr ++ " lladdr " ++
          macAddress.toStr ++ " dev " ++ interfaceName.toStr ++ " nud " ++ type.toStr
        ⟨[command], settle (tool command) failure⟩

/-- `add(ipAddress, macAddress, interfaceName, type = "permanent")`. -/
def add (tool : Tool) (ipAddress macAddress interfaceName type : JSValue) : Outcome :=
  mutate isValidIP "add" "Error adding network neighbor: " tool ipAddress macAddress
    interfaceName type

/-- `update(ipAddress, macAddress, interfaceName, type = "permanent")`. -/
def update (tool : Tool) (ipAddress macAddress interfaceName type : JSValue) : Outcome :=
  mutate isValidIP "replace" "Error updating network neighbor: " tool ipAddress macAddress
    interfaceName type

/-- `remove(ipAddress, interfaceName)`. -/
def remove (tool : Tool) (ipAddress interfaceName : JSValue) : Outcome :=
  if !ipAddress.truthy || !interfaceName.truthy then
    ⟨[], PromiseState.pending.reject
      (mkError "Invalid parameters: IP address and interface name are required.")⟩
  else
    match isValidIP ipAddress with
    | .error e => ⟨[], PromiseState.pending.reject e⟩
    | .ok valid =>
      if !valid.truthy then
        ⟨[], PromiseState.pending.reject (mkError ("Invalid IP address: " ++ ipAddress.toStr))⟩
      else
        let command := "ip neigh del " ++ ipAddress.toStr ++ " dev " ++ interfaceName.toStr
        ⟨[command], settle (tool command) "Error removing network neighbor: "⟩

/-- The command of `flush`: scoped to the interface when a name is given. -/
def flushCommand (interfaceName : JSValue) : String :=
  if interfaceName.truthy then "ip neigh flush dev " ++ interfaceName.toStr
  else "ip neigh flush all"

/-- `flush(interfaceName = '')`. -/
def flush (tool : Tool) (interfaceName : JSValue) : Outcome :=
  let interfaceName := withDefault interfaceName (.string "")
  let command := flushCommand interfaceName
  ⟨[command], settle (tool command) "Error flushing network neighbors: "⟩

end Neighbors

namespace Link

/-- `show()`. -/
def «show» (tool : Tool) : QueryOutcome :=
  let command := "ip -j link show"
  let r := tool command
  if (JSValue.string r.stderr).truthy then
    ⟨[command], .rejected (mkError ("Error retrieving network links: " ++ r.stderr))⟩
  else
    match jsonParse r.stdout with
    | .ok result => ⟨[command], .resolved result⟩
    | .error message =>
      ⟨[command], .rejected (mkError ("Error parsing network links: " ++ message))⟩

end Link

namespace Neighbors

/-- `show(interfaceName = '')`. -/
def «show» (tool : Tool) (interfaceName : JSValue) : QueryOutcome :=
  let interfaceName := withDefault interfaceName (.string "")
  let command : Except JSError String :=
    if interfaceName.truthy then
      match callTrim "interfaceName" interfaceName with
      | .ok t => .ok ("ip -j neigh show dev " ++ t)
      | .error e => .error e
    else .ok "ip -j neigh show"
  match command with
  | .error e => ⟨[], .rejected e⟩
  | .ok command =>
    let r := tool command
    if (JSValue.string r.stderr).truthy then
      ⟨[command], .rejected (mkError ("Error retrieving network neighbors: " ++ r.stderr))⟩
    else
      match jsonParse r.stdout with
      | .ok result => ⟨[command], .resolved result⟩
      | .error message =>
        ⟨[command], .rejected (mkError ("Error parsing network neighbors: " ++ message))⟩

end Neighbors

/-! ## Predicates the statements use -/

/-- The settled state a query reaches from the tool's answer `r`: `onDiagnostic`
when standard error is not empty, otherwise the parsed standard output, or a
rejection with `parseFailure` and the parser's message. -/
def queryPromise (r : ExecResult) (onDiagnostic : QueryPromise) (parseFailure : String) :
    QueryPromise :=
  if (JSValue.string r.stderr).truthy then onDiagnostic
  else
    match jsonParse r.stdout with
    | .ok result => .resolved result
    | .error message => .rejected (mkError (parseFailure ++ message))

/-- The command `addr.show` issues for the name `n`. -/
def addrShowCommand (n : String) : String :=
  if n ≠ "" then "ip -j address show " ++ String.mk (trim n.data) else "ip -j address"

/-- The command `neigh.show` issues for the name `n`. -/
def neighShowCommand (n : String) : String :=
  if n ≠ "" then "ip -j neigh show dev " ++ String.mk (trim n.data) else "ip -j neigh show"

/-- Whether the message of a rejection is that of a parse error. -/
def IsParseError (e : JSError) : Prop :=
  "Error parsing network ".data.isPrefixOf e.message.data = true

/-- The settled state of a link setter by the claim's words: resolved with no
value when standard error is empty; otherwise rejected, with `Cannot find device `
and the device when the diagnostic contains `Cannot find device`, and with the
operation's own words and the diagnostic when it does not. -/
def linkSettled (r : ExecResult) (device failure : String) : PromiseState :=
  if r.stderr = "" then .resolved .undefined
  else .rejected (mkError
    (if includes r.stderr "Cannot find device" then "Cannot find device " ++ device
     else failure ++ r.stderr))


/-- Whether some character class of the expression accepts `c`. -/
def Regex.accepts : Regex → Char → Bool
  | .cls p, c => p c
  | .seq a b, c => a.accepts c || b.accepts c
  | .alt a b, c => a.accepts c || b.accepts c
  | .rep _ _ a, c => a.accepts c
  | .many1 a, c => a.accepts c

/-- A character `Number::toString` writes for a positive finite number. -/
def IsNumChar (ch : Char) : Prop :=
  isDecDigit ch = true ∨ ch = '.' ∨ ch = 'e' ∨ ch = '+' ∨ ch = '-'

/-- Two hexadecimal digits. -/
def IsHexPair (g : List Char) : Prop := g.length = 2 ∧ ∀ c ∈ g, isHexDigit c = true

/-- One of the two separators, `:` or `-`. -/
def IsMacSep (c : Char) : Prop := c = ':' ∨ c = '-'

/-- The reading of a MAC address with one separator throughout: six pairs of
hexadecimal digits joined by one and the same character, `:` or `-`. -/
def UniformMAC (s : List Char) : Prop :=
  ∃ g1 g2 g3 g4 g5 g6 sep, IsMacSep sep ∧
    IsHexPair g1 ∧ IsHexPair g2 ∧ IsHexPair g3 ∧ IsHexPair g4 ∧ IsHexPair g5 ∧ IsHexPair g6 ∧
    s = g1 ++ sep :: (g2 ++ sep :: (g3 ++ sep :: (g4 ++ sep :: (g5 ++ sep :: g6))))

/-- The 0-based positions of the separators in a MAC address. -/
def macSepPositions : List Nat := [2, 5, 8, 11, 14]

/-! ## The regular-expression matcher -/

theorem mem_run_cls (p : Char → Bool) (s rest : List Char) :
    rest ∈ (Regex.cls p).run s ↔ ∃ c, p c = true ∧ s = c :: rest := by
  cases s with
  | nil => simp [Regex.run]
  | cons c cs =>
    by_cases h : p c = true
    · simp [Regex.run, h]
      constructor
      · rintro rfl; exact ⟨c, h, rfl, rfl⟩
      · rintro ⟨d, _, rfl, rfl⟩; rfl
    · simp [Regex.run, h]
      rintro d hd rfl
      exact absurd hd h

theorem mem_run_seq (a b : Regex) (s rest : List Char) :
    rest ∈ (Regex.seq a b).run s ↔ ∃ mid, mid ∈ a.run s ∧ rest ∈ b.run mid := by
  simp [Regex.run, List.mem_flatMap]

theorem mem_runRep_succ (f : List Char → List (List Char)) (lo hi : Nat) (s rest : List Char) :
    rest ∈ runRep f (lo + 1) (hi + 1) s ↔ ∃ mid, mid ∈ f s ∧ rest ∈ runRep f lo hi mid := by
  simp [runRep, List.mem_flatMap]

theorem mem_runRep_zero (f : List Char → List (List Char)) (s rest : List Char) :
    rest ∈ runRep f 0 0 s ↔ rest = s := by
  simp [runRep]

theorem test_iff (r : Regex) (s : List Char) : r.test s = true ↔ [] ∈ r.run s := by
  simp only [Regex.test, List.any_eq_true]
  constructor
  · rintro ⟨x, hx, hx'⟩
    cases x with
    | nil => exact hx
    | cons _ _ => simp at hx'
  · intro h; exact ⟨[], h, rfl⟩

theorem mem_run_rep (a : Regex) (lo hi : Nat) (s rest : List Char) :
    rest ∈ (Regex.rep lo hi a).run s ↔ rest ∈ runRep a.run lo hi s := by
  simp [Regex.run]

theorem mem_run_times (a : Regex) (n : Nat) (s rest : List Char) :
    rest ∈ (Regex.times n a).run s ↔ rest ∈ runRep a.run n n s := by
  simp [Regex.times, Regex.run]

theorem mem_run_hexPair (s rest : List Char) :
    rest ∈ (Regex.times 2 (.cls isHexDigit)).run s ↔
      ∃ a b, s = a :: b :: rest ∧ isHexDigit a = true ∧ isHexDigit b = true := by
  simp only [mem_run_times, mem_runRep_succ, mem_runRep_zero, mem_run_cls]
  constructor
  · rintro ⟨m1, ⟨a, ha, rfl⟩, m2, ⟨b, hb, rfl⟩, rfl⟩
    exact ⟨a, b, rfl, ha, hb⟩
  · rintro ⟨a, b, rfl, ha, hb⟩
    exact ⟨_, ⟨a, ha, rfl⟩, _, ⟨b, hb, rfl⟩, rfl⟩

theorem mem_run_macGroup (s rest : List Char) :
    rest ∈ (Regex.seq (Regex.times 2 (.cls isHexDigit))
        (.cls (fun c => c == ':' || c == '-'))).run s ↔
      ∃ a b c, s = a :: b :: c :: rest ∧ isHexDigit a = true ∧ isHexDigit b = true ∧
        (c = ':' ∨ c = '-') := by
  simp only [mem_run_seq, mem_run_hexPair, mem_run_cls]
  constructor
  · rintro ⟨m1, ⟨a, b, rfl, ha, hb⟩, c, hc, rfl⟩
    exact ⟨a, b, c, rfl, ha, hb, by simpa using hc⟩
  · rintro ⟨a, b, c, rfl, ha, hb, hc⟩
    exact ⟨_, ⟨a, b, rfl, ha, hb⟩, c, by simpa using hc, rfl⟩

theorem mac_test_iff (l : List Char) :
    macRegex.test l = true ↔
      ∃ a0 a1 s1 b0 b1 s2 c0 c1 s3 d0 d1 s4 e0 e1 s5 f0 f1,
        l = [a0, a1, s1, b0, b1, s2, c0, c1, s3, d0, d1, s4, e0, e1, s5, f0, f1] ∧
        (isHexDigit a0 = true ∧ isHexDigit a1 = true ∧ (s1 = ':' ∨ s1 = '-')) ∧
        (isHexDigit b0 = true ∧ isHexDigit b1 = true ∧ (s2 = ':' ∨ s2 = '-')) ∧
        (isHexDigit c0 = true ∧ isHexDigit c1 = true ∧ (s3 = ':' ∨ s3 = '-')) ∧
        (isHexDigit d0 = true ∧ isHexDigit d1 = true ∧ (s4 = ':' ∨ s4 = '-')) ∧
        (isHexDigit e0 = true ∧ isHexDigit e1 = true ∧ (s5 = ':' ∨ s5 = '-')) ∧
        isHexDigit f0 = true ∧ isHexDigit f1 = true := by
  rw [test_iff, macRegex, mem_run_seq]
  simp only [mem_run_hexPair]
  simp only [mem_run_times, mem_runRep_succ, mem_runRep_zero, mem_run_macGroup]
  constructor
  · rintro ⟨m, ⟨m1, ⟨a0, a1, s1, rfl, ha0, ha1, hs1⟩, m2, ⟨b0, b1, s2, rfl, hb0, hb1, hs2⟩,
      m3, ⟨c0, c1, s3, rfl, hc0, hc1, hs3⟩, m4, ⟨d0, d1, s4, rfl, hd0, hd1, hs4⟩,
      m5, ⟨e0, e1, s5, rfl, he0, he1, hs5⟩, rfl⟩, f0, f1, rfl, hf0, hf1⟩
    exact ⟨a0, a1, s1, b0, b1, s2, c0, c1, s3, d0, d1, s4, e0, e1, s5, f0, f1, rfl,
      ⟨ha0, ha1, hs1⟩, ⟨hb0, hb1, hs2⟩, ⟨hc0, hc1, hs3⟩, ⟨hd0, hd1, hs4⟩, ⟨he0, he1, hs5⟩,
      hf0, hf1⟩
  · rintro ⟨a0, a1, s1, b0, b1, s2, c0, c1, s3, d0, d1, s4, e0, e1, s5, f0, f1, rfl,
      ⟨ha0, ha1, hs1⟩, ⟨hb0, hb1, hs2⟩, ⟨hc0, hc1, hs3⟩, ⟨hd0, hd1, hs4⟩, ⟨he0, he1, hs5⟩,
      hf0, hf1⟩
    exact ⟨_, ⟨_, ⟨a0, a1, s1, rfl, ha0, ha1, hs1⟩, _, ⟨b0, b1, s2, rfl, hb0, hb1, hs2⟩,
      _, ⟨c0, c1, s3, rfl, hc0, hc1, hs3⟩, _, ⟨d0, d1, s4, rfl, hd0, hd1, hs4⟩,
      _, ⟨e0, e1, s5, rfl, he0, he1, hs5⟩, rfl⟩, f0, f1, rfl, hf0, hf1⟩

theorem isHexPair_iff (g : List Char) :
    IsHexPair g ↔ ∃ a b, g = [a, b] ∧ isHexDigit a = true ∧ isHexDigit b = true := by
  constructor
  · rintro ⟨hlen, hall⟩
    obtain ⟨a, b, rfl⟩ := List.length_eq_two.mp hlen
    exact ⟨a, b, rfl, hall a (by simp), hall b (by simp)⟩
  · rintro ⟨a, b, rfl, ha, hb⟩
    refine ⟨rfl, ?_⟩
    intro c hc
    simp at hc
    rcases hc with rfl | rfl <;> assumption

theorem mac_valid_iff_test (s : String) :
    isValidMACAddress (.string s) = .bool true ↔ macRegex.test s.data = true := by
  simp [isValidMACAddress, JSValue.toStr]

/-- C3 (as amended): `isValidMACAddress(s)` is true exactly when `s` is six pairs of
hexadecimal digits joined by five separators, each of which is `:` or `-`; the
separators need not be the same character. -/
theorem mac_valid_iff_six_pairs (s : String) :
    isValidMACAddress (.string s) = .bool true ↔
      ∃ g1 g2 g3 g4 g5 g6 p1 p2 p3 p4 p5,
        IsHexPair g1 ∧ IsHexPair g2 ∧ IsHexPair g3 ∧ IsHexPair g4 ∧ IsHexPair g5 ∧
        IsHexPair g6 ∧ IsMacSep p1 ∧ IsMacSep p2 ∧ IsMacSep p3 ∧ IsMacSep p4 ∧ IsMacSep p5 ∧
        s.data = g1 ++ p1 :: (g2 ++ p2 :: (g3 ++ p3 :: (g4 ++ p4 :: (g5 ++ p5 :: g6)))) := by
  rw [mac_valid_iff_test, mac_test_iff]
  simp only [isHexPair_iff, IsMacSep]
  constructor
  · rintro ⟨a0, a1, s1, b0, b1, s2, c0, c1, s3, d0, d1, s4, e0, e1, s5, f0, f1, hl,
      ⟨ha0, ha1, hs1⟩, ⟨hb0, hb1, hs2⟩, ⟨hc0, hc1, hs3⟩, ⟨hd0, hd1, hs4⟩, ⟨he0, he1, hs5⟩,
      hf0, hf1⟩
    exact ⟨_, _, _, _, _, _, s1, s2, s3, s4, s5, ⟨a0, a1, rfl, ha0, ha1⟩, ⟨b0, b1, rfl, hb0, hb1⟩,
      ⟨c0, c1, rfl, hc0, hc1⟩, ⟨d0, d1, rfl, hd0, hd1⟩, ⟨e0, e1, rfl, he0, he1⟩,
      ⟨f0, f1, rfl, hf0, hf1⟩, hs1, hs2, hs3, hs4, hs5, by simpa using hl⟩
  · rintro ⟨_, _, _, _, _, _, s1, s2, s3, s4, s5, ⟨a0, a1, rfl, ha0, ha1⟩, ⟨b0, b1, rfl, hb0, hb1⟩,
      ⟨c0, c1, rfl, hc0, hc1⟩, ⟨d0, d1, rfl, hd0, hd1⟩, ⟨e0, e1, rfl, he0, he1⟩,
      ⟨f0, f1, rfl, hf0, hf1⟩, hs1, hs2, hs3, hs4, hs5, hl⟩
    exact ⟨a0, a1, s1, b0, b1, s2, c0, c1, s3, d0, d1, s4, e0, e1, s5, f0, f1, by simpa using hl,
      ⟨ha0, ha1, hs1⟩, ⟨hb0, hb1, hs2⟩, ⟨hc0, hc1, hs3⟩, ⟨hd0, hd1, hs4⟩, ⟨he0, he1, hs5⟩,
      hf0, hf1⟩

/-- C3 (counterexample): `00:11-22:33-44:55` mixes `:` and `-`, so it is not six
pairs joined by one and the same separator, and `isValidMACAddress` returns true
on it. -/
theorem mac_mixed_separators_accepted :
    isValidMACAddress (.string "00:11-22:33-44:55") = .bool true ∧
    ¬ UniformMAC "00:11-22:33-44:55".data := by
  refine ⟨by decide, ?_⟩
  rintro ⟨g1, g2, g3, g4, g5, g6, sep, -, h1, h2, h3, h4, h5, h6, hs⟩
  rw [isHexPair_iff] at h1 h2 h3 h4 h5 h6
  obtain ⟨a0, a1, rfl, -, -⟩ := h1
  obtain ⟨b0, b1, rfl, -, -⟩ := h2
  simp at hs
  obtain ⟨-, -, h, -, -, h', -⟩ := hs
  rw [← h] at h'
  exact absurd h' (by decide)


theorem list_of_length_17 (l : List Char) (h : l.length = 17) :
    ∃ a0 a1 s1 b0 b1 s2 c0 c1 s3 d0 d1 s4 e0 e1 s5 f0 f1,
      l = [a0, a1, s1, b0, b1, s2, c0, c1, s3, d0, d1, s4, e0, e1, s5, f0, f1] := by
  match l, h with
  | [a0, a1, s1, b0, b1, s2, c0, c1, s3, d0, d1, s4, e0, e1, s5, f0, f1], _ =>
    exact ⟨a0, a1, s1, b0, b1, s2, c0, c1, s3, d0, d1, s4, e0, e1, s5, f0, f1, rfl⟩

theorem isHexDigit_not_whiteSpace (c : Char) (h : isHexDigit c = true) :
    isWhiteSpace c = false := by
  simp only [isHexDigit, inRange, Bool.or_eq_true, Bool.and_eq_true, decide_eq_true_eq] at h
  have e0 : ('0' : Char).toNat = 48 := by decide
  have e9 : ('9' : Char).toNat = 57 := by decide
  have eA : ('A' : Char).toNat = 65 := by decide
  have eF : ('F' : Char).toNat = 70 := by decide
  have ea : ('a' : Char).toNat = 97 := by decide
  have ef : ('f' : Char).toNat = 102 := by decide
  rw [e0, e9, eA, eF, ea, ef] at h
  simp only [isWhiteSpace, Bool.or_eq_false_iff, Bool.and_eq_false_iff, decide_eq_false_iff_not]
  omega

theorem isMacSep_not_whiteSpace (c : Char) (h : IsMacSep c) : isWhiteSpace c = false := by
  rcases h with rfl | rfl <;> decide

/-- C4: `isValidMACAddress(s)` is true exactly when `s` has 17 characters, those at
positions 2, 5, 8, 11 and 14 each `:` or `-` and the other twelve hexadecimal digits
of either case; every character of an accepted string is one of these, and none is
white space or a line terminator. -/
theorem mac_valid_iff_positions (s : String) :
    (isValidMACAddress (.string s) = .bool true ↔
      s.data.length = 17 ∧
      ∀ i c, s.data.get? i = some c →
        if i ∈ macSepPositions then c = ':' ∨ c = '-' else isHexDigit c = true) ∧
    (isValidMACAddress (.string s) = .bool true →
      ∀ c ∈ s.data, (isHexDigit c = true ∨ c = ':' ∨ c = '-') ∧ isWhiteSpace c = false) := by
  rw [mac_valid_iff_test, mac_test_iff]
  refine ⟨⟨?_, ?_⟩, ?_⟩
  · rintro ⟨a0, a1, s1, b0, b1, s2, c0, c1, s3, d0, d1, s4, e0, e1, s5, f0, f1, hl,
      ⟨ha0, ha1, hs1⟩, ⟨hb0, hb1, hs2⟩, ⟨hc0, hc1, hs3⟩, ⟨hd0, hd1, hs4⟩, ⟨he0, he1, hs5⟩,
      hf0, hf1⟩
    rw [hl]
    refine ⟨rfl, ?_⟩
    intro i c hi
    have hlt : i < 17 := by
      have := (List.get?_eq_some.mp hi).1
      simpa using this
    interval_cases i <;> simp [macSepPositions] at hi ⊢ <;> subst hi <;> assumption
  · rintro ⟨hlen, hpos⟩
    obtain ⟨a0, a1, s1, b0, b1, s2, c0, c1, s3, d0, d1, s4, e0, e1, s5, f0, f1, hl⟩ :=
      list_of_length_17 _ hlen
    rw [hl] at hpos
    refine ⟨a0, a1, s1, b0, b1, s2, c0, c1, s3, d0, d1, s4, e0, e1, s5, f0, f1, hl,
      ⟨?_, ?_, ?_⟩, ⟨?_, ?_, ?_⟩, ⟨?_, ?_, ?_⟩, ⟨?_, ?_, ?_⟩, ⟨?_, ?_, ?_⟩, ?_, ?_⟩
    · simpa [macSepPositions] using hpos 0 a0 rfl
    · simpa [macSepPositions] using hpos 1 a1 rfl
    · simpa [macSepPositions] using hpos 2 s1 rfl
    · simpa [macSepPositions] using hpos 3 b0 rfl
    · simpa [macSepPositions] using hpos 4 b1 rfl
    · simpa [macSepPositions] using hpos 5 s2 rfl
    · simpa [macSepPositions] using hpos 6 c0 rfl
    · simpa [macSepPositions] using hpos 7 c1 rfl
    · simpa [macSepPositions] using hpos 8 s3 rfl
    · simpa [macSepPositions] using hpos 9 d0 rfl
    · simpa [macSepPositions] using hpos 10 d1 rfl
    · simpa [macSepPositions] using hpos 11 s4 rfl
    · simpa [macSepPositions] using hpos 12 e0 rfl
    · simpa [macSepPositions] using hpos 13 e1 rfl
    · simpa [macSepPositions] using hpos 14 s5 rfl
    · simpa [macSepPositions] using hpos 15 f0 rfl
    · simpa [macSepPositions] using hpos 16 f1 rfl
  · rintro ⟨a0, a1, s1, b0, b1, s2, c0, c1, s3, d0, d1, s4, e0, e1, s5, f0, f1, hl,
      ⟨ha0, ha1, hs1⟩, ⟨hb0, hb1, hs2⟩, ⟨hc0, hc1, hs3⟩, ⟨hd0, hd1, hs4⟩, ⟨he0, he1, hs5⟩,
      hf0, hf1⟩ c hc
    rw [hl] at hc
    simp only [List.mem_cons, List.mem_singleton, List.not_mem_nil, or_false] at hc
    rcases hc with rfl | rfl | rfl | rfl | rfl | rfl | rfl | rfl | rfl | rfl | rfl | rfl | rfl |
      rfl | rfl | rfl | rfl
    all_goals first
      | exact ⟨Or.inl (by assumption), isHexDigit_not_whiteSpace _ (by assumption)⟩
      | exact ⟨Or.inr (by assumption), isMacSep_not_whiteSpace _ (by assumption)⟩

/-! ## Decimal digits -/

theorem isDecDigit_iff (c : Char) : isDecDigit c = true ↔ 48 ≤ c.toNat ∧ c.toNat ≤ 57 := by
  unfold isDecDigit isRadixDigit digitVal
  constructor
  · intro h
    by_contra hc
    simp only [hc, if_false] at h
    split_ifs at h with h1 h2 <;> simp at h <;> omega
  · intro h
    simp only [h, and_self, if_true, decide_eq_true_eq]
    omega

theorem digitVal_of_isDecDigit (c : Char) (h : isDecDigit c = true) :
    digitVal c = some (c.toNat - 48) := by
  have h' := (isDecDigit_iff c).mp h
  simp [digitVal, h']

theorem isDecDigit_not_whiteSpace (c : Char) (h : isDecDigit c = true) :
    isWhiteSpace c = false := by
  have h' := (isDecDigit_iff c).mp h
  simp only [isWhiteSpace, Bool.or_eq_false_iff, Bool.and_eq_false_iff, decide_eq_false_iff_not]
  omega

theorem digitChar_spec (d : Nat) (h : d < 10) :
    isDecDigit (Nat.digitChar d) = true ∧ digitVal (Nat.digitChar d) = some d := by
  interval_cases d <;> exact ⟨by decide, by decide⟩

theorem radixValue_append_singleton (r : Nat) (ds : List Char) (c : Char) :
    radixValue r (ds ++ [c]) = radixValue r ds * r + (digitVal c).getD 0 := by
  simp [radixValue, List.foldl_append]

/-- Enough fuel makes `Nat.toDigitsCore` put the decimal digits of `n` in front of
the accumulator. -/
theorem toDigitsCore_spec (fuel : Nat) : ∀ (n : Nat) (acc : List Char), n < fuel →
    ∃ front, front ≠ [] ∧ (∀ c ∈ front, isDecDigit c = true) ∧ radixValue 10 front = n ∧
      Nat.toDigitsCore 10 fuel n acc = front ++ acc := by
  induction fuel with
  | zero => intro n acc h; omega
  | succ fuel ih =>
    intro n acc h
    have hd := digitChar_spec (n % 10) (Nat.mod_lt _ (by decide))
    by_cases h0 : n / 10 = 0
    · refine ⟨[Nat.digitChar (n % 10)], by simp, ?_, ?_, ?_⟩
      · intro c hc; simp at hc; subst hc; exact hd.1
      · have hn : n % 10 = n := by omega
        simp only [radixValue, List.foldl_cons, List.foldl_nil, hd.2, Option.getD_some]
        omega
      · simp [Nat.toDigitsCore, h0]
    · have hlt : n / 10 < fuel := by omega
      obtain ⟨front, hne, hall, hval, heq⟩ := ih (n / 10) (Nat.digitChar (n % 10) :: acc) hlt
      refine ⟨front ++ [Nat.digitChar (n % 10)], by simp, ?_, ?_, ?_⟩
      · intro c hc
        simp only [List.mem_append, List.mem_singleton] at hc
        rcases hc with hc | rfl
        · exact hall c hc
        · exact hd.1
      · rw [radixValue_append_singleton, hval, hd.2]
        simp only [Option.getD_some]
        omega
      · simp [Nat.toDigitsCore, h0, heq]

theorem natDigits_spec (n : Nat) :
    natDigits n ≠ [] ∧ (∀ c ∈ natDigits n, isDecDigit c = true) ∧
      radixValue 10 (natDigits n) = n := by
  obtain ⟨front, hne, hall, hval, heq⟩ := toDigitsCore_spec (n + 1) n [] (Nat.lt_succ_self n)
  have : natDigits n = front := by simp [natDigits, Nat.toDigits, heq]
  rw [this]
  exact ⟨hne, hall, hval⟩

/-! ## Rounding to a double -/

theorem roundRatio_isNaN (a b : Nat) : (roundRatio a b).isNaN = false := by
  unfold roundRatio
  simp only
  split_ifs <;> rfl

theorem roundRatio_ge_zero (a b : Nat) : (roundRatio a b).ge (JSNumber.ofNat 0) = true := by
  unfold roundRatio
  simp only
  split_ifs
  · rfl
  · simp only [JSNumber.ge, JSNumber.lt, JSNumber.ofNat, Dec.lt, Dec.ofBinary]
    split_ifs <;> simp

theorem bitLengthAux_spec (fuel : Nat) : ∀ n : Nat, n ≤ fuel → 0 < n →
    2 ^ (bitLengthAux fuel n - 1) ≤ n ∧ n < 2 ^ bitLengthAux fuel n ∧ 0 < bitLengthAux fuel n := by
  induction fuel with
  | zero => intro n h h0; omega
  | succ fuel ih =>
    intro n h h0
    have hn : n ≠ 0 := by omega
    simp only [bitLengthAux, hn, if_false]
    by_cases h1 : n / 2 = 0
    · have : n = 1 := by omega
      subst this
      cases fuel <;> simp [bitLengthAux]
    · obtain ⟨ha, hb, hc⟩ := ih (n / 2) (by omega) (by omega)
      refine ⟨?_, ?_, by omega⟩
      · have : bitLengthAux fuel (n / 2) + 1 - 1 = (bitLengthAux fuel (n / 2) - 1) + 1 := by omega
        rw [this, pow_succ]
        omega
      · rw [pow_succ]
        omega

/-- A positive `n` has `bitLength n` binary digits: `2^(L-1) ≤ n < 2^L`. -/
theorem bitLength_spec (n : Nat) (h : 0 < n) :
    2 ^ (bitLength n - 1) ≤ n ∧ n < 2 ^ bitLength n ∧ 0 < bitLength n :=
  bitLengthAux_spec n n (le_refl n) h

theorem divRoundHalfEven_one (a : Nat) : divRoundHalfEven a 1 = a := by
  simp [divRoundHalfEven, Nat.mod_one]

theorem div_le_divRoundHalfEven (a b : Nat) : a / b ≤ divRoundHalfEven a b := by
  unfold divRoundHalfEven
  simp only
  split_ifs <;> omega

theorem bitLength_le_of_lt (n s : Nat) (h : n < 2 ^ s) : bitLength n ≤ s := by
  rcases Nat.eq_zero_or_pos n with rfl | hn
  · have : bitLength 0 = 0 := rfl
    omega
  · obtain ⟨h1, -, -⟩ := bitLength_spec n hn
    have : 2 ^ (bitLength n - 1) < 2 ^ s := lt_of_le_of_lt h1 h
    have := (Nat.pow_lt_pow_iff_right (by decide : 1 < 2)).mp this
    omega

theorem lt_bitLength_of_le (n s : Nat) (h : 2 ^ s ≤ n) : s < bitLength n := by
  have hn : 0 < n := lt_of_lt_of_le (by positivity) h
  obtain ⟨-, h2, -⟩ := bitLength_spec n hn
  exact (Nat.pow_lt_pow_iff_right (by decide : 1 < 2)).mp (lt_of_le_of_lt h h2)

/-- The Number value for a natural number `v`, by the count `L` of its binary digits. -/
theorem roundRatio_nat (v : Nat) (hv : 0 < v) :
    roundRatio v 1 =
      (if 1024 < (bitLength (divRoundHalfEven (v * 2 ^ (53 - bitLength v)) (2 ^ (bitLength v - 53))) : Int)
            + ((bitLength v : Int) - 53) then .posInf
       else .fin (Dec.ofBinary (divRoundHalfEven (v * 2 ^ (53 - bitLength v)) (2 ^ (bitLength v - 53)))
            ((bitLength v : Int) - 53))) := by
  obtain ⟨h1, h2, h3⟩ := bitLength_spec v hv
  have hb1 : bitLength 1 = 1 := rfl
  unfold roundRatio binaryExponent
  simp only [hb1]
  have e0a : ((bitLength v : Int) - (1 : Nat)).toNat = bitLength v - 1 := by omega
  have e0b : (-((bitLength v : Int) - (1 : Nat))).toNat = 0 := by omega
  rw [e0a, e0b]
  have htest : 1 * 2 ^ (bitLength v - 1) ≤ v * 2 ^ 0 := by simpa using h1
  rw [if_pos htest]
  have hq : max ((bitLength v : Int) - (1 : Nat) - 52) (-1074) = (bitLength v : Int) - 53 := by
    omega
  rw [hq]
  have q1 : (-((bitLength v : Int) - 53)).toNat = 53 - bitLength v := by omega
  have q2 : ((bitLength v : Int) - 53).toNat = bitLength v - 53 := by omega
  rw [q1, q2, one_mul]

/-- The Number value for a natural number `v` is at most `k`, for `k` below `2^52`,
exactly when `v` is: up to `2^53` the value is `v`, and past it at least `2^52`. -/
theorem roundRatio_nat_le (v k : Nat) (hk : k < 2 ^ 52) :
    (roundRatio v 1).le (JSNumber.ofNat k) = decide (v ≤ k) := by
  rcases Nat.eq_zero_or_pos v with rfl | hv
  · have h0 : roundRatio 0 1 = .fin ⟨0, -54⟩ := by decide
    rw [h0]
    simp [JSNumber.le, JSNumber.lt, JSNumber.ofNat, Dec.lt]
  · obtain ⟨h1, h2, h3⟩ := bitLength_spec v hv
    rw [roundRatio_nat v hv]
    by_cases hL : bitLength v ≤ 53
    · obtain ⟨s, hs⟩ : ∃ s, bitLength v + s = 53 := ⟨53 - bitLength v, by omega⟩
      have a1 : 53 - bitLength v = s := by omega
      have a2 : bitLength v - 53 = 0 := by omega
      have a3 : (bitLength v : Int) - 53 = -(s : Int) := by omega
      rw [a1, a2, a3, pow_zero, divRoundHalfEven_one]
      have hlt : v * 2 ^ s < 2 ^ 53 := by
        rw [← hs, pow_add]
        exact Nat.mul_lt_mul_of_pos_right h2 (by positivity)
      have hbl := bitLength_le_of_lt _ _ hlt
      have hno : ¬ (1024 < (bitLength (v * 2 ^ s) : Int) + -(s : Int)) := by omega
      rw [if_neg hno]
      unfold Dec.ofBinary
      by_cases hs0 : s = 0
      · subst hs0
        by_cases h : v ≤ k
        · simp [JSNumber.le, JSNumber.lt, JSNumber.ofNat, Dec.lt, h, Nat.not_lt.mpr h]
        · simp [JSNumber.le, JSNumber.lt, JSNumber.ofNat, Dec.lt, h, Nat.lt_of_not_le h]
      · have hneg : ¬ (0 ≤ -(s : Int)) := by omega
        rw [if_neg hneg]
        have t1 : (- -(s : Int)).toNat = s := by omega
        have hmin : min (0 : Int) (-(s : Int)) = -(s : Int) := by omega
        have t2 : ((0 : Int) - -(s : Int)).toNat = s := by omega
        have t3 : (-(s : Int) - -(s : Int)).toNat = 0 := by omega
        simp only [JSNumber.le, JSNumber.lt, JSNumber.ofNat, Dec.lt, t1, hmin, t2, t3, pow_zero,
          mul_one]
        have key : ((v * 2 ^ s : Nat) : Int) * 5 ^ s = (v : Int) * 10 ^ s := by
          push_cast
          rw [mul_assoc, ← mul_pow]
          norm_num
        rw [key]
        have hpos : (0 : Int) < 10 ^ s := by positivity
        by_cases h : v ≤ k
        · have hle : ¬ ((k : Int) * 10 ^ s < (v : Int) * 10 ^ s) := by
            rw [mul_lt_mul_right hpos]
            omega
          simp [h, hle]
        · have hlt' : (k : Int) * 10 ^ s < (v : Int) * 10 ^ s := by
            rw [mul_lt_mul_right hpos]
            omega
          simp [h, hlt']
    · have hge : 2 ^ 52 * 2 ^ (bitLength v - 53) ≤ v := by
        rw [← pow_add]
        have : 52 + (bitLength v - 53) = bitLength v - 1 := by omega
        rw [this]
        exact h1
      have a1 : 53 - bitLength v = 0 := by omega
      rw [a1, pow_zero, mul_one]
      have hk52 : 2 ^ 52 ≤ divRoundHalfEven v (2 ^ (bitLength v - 53)) :=
        le_trans ((Nat.le_div_iff_mul_le (by positivity)).mpr hge) (div_le_divRoundHalfEven _ _)
      generalize divRoundHalfEven v (2 ^ (bitLength v - 53)) = kk at hk52 ⊢
      have hv52 : 2 ^ 52 ≤ v := le_trans (Nat.le_mul_of_pos_right _ (by positivity)) hge
      have hvk : ¬ v ≤ k := by omega
      split_ifs
      · simp [JSNumber.le, JSNumber.lt, JSNumber.ofNat, hvk]
      · have hq0 : 0 ≤ (bitLength v : Int) - 53 := by omega
        unfold Dec.ofBinary
        rw [if_pos hq0]
        have hkk : k < kk * 2 ^ ((bitLength v : Int) - 53).toNat :=
          lt_of_lt_of_le (lt_of_lt_of_le hk hk52) (Nat.le_mul_of_pos_right _ (by positivity))
        simp only [JSNumber.le, JSNumber.lt, JSNumber.ofNat, Dec.lt, min_self, sub_self,
          Int.toNat_zero, pow_zero, mul_one]
        have : (k : Int) < (kk : Int) * 2 ^ ((bitLength v : Int) - 53).toNat := by
          exact_mod_cast hkk
        simp [hvk, this]

theorem roundDecimal_zero (m : Nat) : roundDecimal m 0 = roundRatio m 1 := by
  simp [roundDecimal]

/-- Twice `a / b` differs from twice `divRoundHalfEven a b` by at most 1, and by
exactly 1 only at an even result. -/
theorem divRoundHalfEven_spec (a b : Nat) (hb : 0 < b) :
    2 * a ≤ (2 * divRoundHalfEven a b + 1) * b ∧
    2 * divRoundHalfEven a b * b ≤ 2 * a + b ∧
    ((2 * a = (2 * divRoundHalfEven a b + 1) * b ∨ 2 * divRoundHalfEven a b * b = 2 * a + b) →
      divRoundHalfEven a b % 2 = 0) := by
  have hdm := Nat.div_add_mod a b
  have hr := Nat.mod_lt a hb
  unfold divRoundHalfEven
  simp only []
  generalize a / b = k at hdm ⊢
  generalize a % b = r at hdm hr ⊢
  have e1 : (2 * k + 1) * b = 2 * (b * k) + b := by ring
  have e2 : (2 * (k + 1) + 1) * b = 2 * (b * k) + 3 * b := by ring
  have e3 : 2 * k * b = 2 * (b * k) := by ring
  have e4 : 2 * (k + 1) * b = 2 * (b * k) + 2 * b := by ring
  generalize b * k = t at hdm e1 e2 e3 e4
  split_ifs with h1 h2 h3
  · rw [e1, e3]; omega
  · rw [e2, e4]; omega
  · rw [e1, e3]; omega
  · rw [e2, e4]; omega

theorem pow_bitLength_split (l d : Nat) (hl : 0 < l) : 2 ^ (l + d) = 2 ^ (l - 1) * 2 ^ (d + 1) := by
  rw [← pow_add]
  congr 1
  omega

/-- The exponent `binaryExponent` returns is the binary exponent of `a / b`. -/
theorem binaryExponent_spec (a b : Nat) (ha : 0 < a) (hb : 0 < b) :
    b * 2 ^ (binaryExponent a b).toNat ≤ a * 2 ^ (-(binaryExponent a b)).toNat ∧
    a * 2 ^ (-(binaryExponent a b + 1)).toNat < b * 2 ^ (binaryExponent a b + 1).toNat := by
  obtain ⟨a1, a2, a3⟩ := bitLength_spec a ha
  obtain ⟨b1, b2, b3⟩ := bitLength_spec b hb
  unfold binaryExponent
  simp only []
  generalize bitLength a = la at a1 a2 a3 ⊢
  generalize bitLength b = lb at b1 b2 b3 ⊢
  by_cases hl : lb ≤ la
  · obtain ⟨d, rfl⟩ : ∃ d, la = lb + d := ⟨la - lb, by omega⟩
    have t1 : (((lb + d : Nat) : Int) - (lb : Int)).toNat = d := by omega
    have t2 : (-(((lb + d : Nat) : Int) - (lb : Int))).toNat = 0 := by omega
    rw [t1, t2, pow_zero, mul_one]
    have hsplit := pow_bitLength_split lb d b3
    by_cases htest : b * 2 ^ d ≤ a
    · rw [if_pos htest]
      have t3 : (-(((lb + d : Nat) : Int) - (lb : Int) + 1)).toNat = 0 := by omega
      have t4 : (((lb + d : Nat) : Int) - (lb : Int) + 1).toNat = d + 1 := by omega
      rw [t1, t2, t3, t4, pow_zero, mul_one]
      refine ⟨htest, ?_⟩
      calc a < 2 ^ (lb + d) := a2
        _ = 2 ^ (lb - 1) * 2 ^ (d + 1) := hsplit
        _ ≤ b * 2 ^ (d + 1) := Nat.mul_le_mul_right _ b1
    · rw [if_neg htest]
      have t5 : (((lb + d : Nat) : Int) - (lb : Int) - 1 + 1).toNat = d := by omega
      have t6 : (-(((lb + d : Nat) : Int) - (lb : Int) - 1 + 1)).toNat = 0 := by omega
      rw [t5, t6, pow_zero, mul_one]
      refine ⟨?_, by omega⟩
      rcases Nat.eq_zero_or_pos d with rfl | hd
      · have t7 : (((lb + 0 : Nat) : Int) - (lb : Int) - 1).toNat = 0 := by omega
        have t8 : (-(((lb + 0 : Nat) : Int) - (lb : Int) - 1)).toNat = 1 := by omega
        rw [t7, t8, pow_zero, mul_one, pow_one]
        have h2 : 2 ^ lb = 2 ^ (lb - 1) * 2 := by
          rw [← pow_succ]; congr 1; omega
        simp only [add_zero] at a1
        omega
      · obtain ⟨d', rfl⟩ : ∃ d', d = d' + 1 := ⟨d - 1, by omega⟩
        have t7 : (((lb + (d' + 1) : Nat) : Int) - (lb : Int) - 1).toNat = d' := by omega
        have t8 : (-(((lb + (d' + 1) : Nat) : Int) - (lb : Int) - 1)).toNat = 0 := by omega
        rw [t7, t8, pow_zero, mul_one]
        have h3 : lb + (d' + 1) - 1 = lb + d' := by omega
        rw [h3, pow_add] at a1
        exact le_trans (Nat.mul_le_mul_right _ (le_of_lt b2)) a1
  · obtain ⟨d, rfl⟩ : ∃ d, lb = la + d + 1 := ⟨lb - la - 1, by omega⟩
    have t1 : ((la : Int) - ((la + d + 1 : Nat) : Int)).toNat = 0 := by omega
    have t2 : (-((la : Int) - ((la + d + 1 : Nat) : Int))).toNat = d + 1 := by omega
    rw [t1, t2, pow_zero, mul_one]
    by_cases htest : b ≤ a * 2 ^ (d + 1)
    · rw [if_pos htest]
      have t3 : (-((la : Int) - ((la + d + 1 : Nat) : Int) + 1)).toNat = d := by omega
      have t4 : ((la : Int) - ((la + d + 1 : Nat) : Int) + 1).toNat = 0 := by omega
      rw [t1, t2, t3, t4, pow_zero, mul_one]
      refine ⟨htest, ?_⟩
      have h3 : la + d + 1 - 1 = la + d := by omega
      rw [h3, pow_add] at b1
      exact lt_of_lt_of_le (Nat.mul_lt_mul_of_pos_right a2 (by positivity)) b1
    · rw [if_neg htest]
      have t5 : ((la : Int) - ((la + d + 1 : Nat) : Int) - 1).toNat = 0 := by omega
      have t6 : (-((la : Int) - ((la + d + 1 : Nat) : Int) - 1)).toNat = d + 2 := by omega
      have t7 : ((la : Int) - ((la + d + 1 : Nat) : Int) - 1 + 1).toNat = 0 := by omega
      have t8 : (-((la : Int) - ((la + d + 1 : Nat) : Int) - 1 + 1)).toNat = d + 1 := by omega
      rw [t5, t6, t7, t8, pow_zero, mul_one]
      refine ⟨?_, by omega⟩
      have hsplit := pow_bitLength_split la (d + 1) a3
      have : b < a * 2 ^ (d + 1 + 1) := by
        calc b < 2 ^ (la + d + 1) := b2
          _ = 2 ^ (la - 1) * 2 ^ (d + 1 + 1) := hsplit
          _ ≤ a * 2 ^ (d + 1 + 1) := Nat.mul_le_mul_right _ a1
      exact le_of_lt this

/-- The rounding at the edges of the doubles: just above 32, below the least
positive double, past `2^53`, and around the greatest double. -/
theorem stringToNumber_rounds :
    (JSValue.string "32.000000000000001").toNumber.le (JSNumber.ofNat 32) = true ∧
    (JSValue.string "32.000000000000004").toNumber.le (JSNumber.ofNat 32) = false ∧
    (JSValue.string "1e-400").toNumber.gt (JSNumber.ofNat 0) = false ∧
    (JSValue.string "-1e-400").toNumber.ge (JSNumber.ofNat 0) = true ∧
    (JSValue.string "5e-324").toNumber.gt (JSNumber.ofNat 0) = true ∧
    (JSValue.string "2e-324").toNumber.gt (JSNumber.ofNat 0) = false ∧
    (JSValue.string "9007199254740993").toNumber = .fin ⟨9007199254740992, 0⟩ ∧
    (JSValue.string "9007199254740995").toNumber = .fin ⟨9007199254740996, 0⟩ ∧
    parseInt (.string "9007199254740993") = .fin ⟨9007199254740992, 0⟩ ∧
    (JSValue.string "1.7976931348623158e308").toNumber.lt .posInf = some true ∧
    (JSValue.string "1.7976931348623159e308").toNumber = .posInf ∧
    (JSValue.string "-1e400").toNumber = .negInf := by
  refine ⟨by decide, by decide, by decide!, by decide!, by decide!, by decide!, by decide,
    by decide, by decide, by decide!, by decide!, by decide!⟩

/-- The validators at these edges: `isValidMTU` is false at `1e-400`, which is 0, and
true at `5e-324`; `isValidCIDR` accepts the lengths `32.000000000000001` and
`-1e-400`, which are 32 and 0, and refuses `32.000000000000004`. -/
theorem validators_round :
    isValidMTU (.string "1e-400") = .bool false ∧
    isValidMTU (.string "5e-324") = .bool true ∧
    isValidCIDR (.string "1.2.3.4/32.000000000000001") = .ok (.bool true) ∧
    isValidCIDR (.string "1.2.3.4/-1e-400") = .ok (.bool true) ∧
    isValidCIDR (.string "1.2.3.4/32.000000000000004") = .ok (.bool false) :=
  ⟨by decide!, by decide!, rfl,
   congrArg Except.ok (by decide! : cidrCheck (splitOn '/' "1.2.3.4/-1e-400".data) = .bool true),
   rfl⟩

/-! ## `parseInt` on text that starts with a digit -/

theorem trimStart_of_not_whiteSpace (c : Char) (rest : List Char)
    (h : isWhiteSpace c = false) : trimStart (c :: rest) = c :: rest := by
  simp [trimStart, List.dropWhile, h]

theorem parseIntDigits_digit_start (c : Char) (rest : List Char) (hc : isDecDigit c = true)
    (hx : ∀ r ∈ rest.head?, r ≠ 'x' ∧ r ≠ 'X') :
    (parseIntDigits (c :: rest)).isNaN = false := by
  have htw : (c :: rest).takeWhile (isRadixDigit 10) ≠ [] := by
    have : isRadixDigit 10 c = true := hc
    simp [List.takeWhile, this]
  unfold parseIntDigits
  split
  · rename_i r heq
    simp only [List.cons.injEq] at heq
    obtain ⟨-, rfl⟩ := heq
    exact absurd rfl (hx 'x' (by simp)).1
  · rename_i r heq
    simp only [List.cons.injEq] at heq
    obtain ⟨-, rfl⟩ := heq
    exact absurd rfl (hx 'X' (by simp)).2
  · simp [htw, roundRatio_isNaN]

theorem parseInt_digit_start (v : JSValue) (c : Char) (rest : List Char)
    (h : v.toStr.data = c :: rest) (hc : isDecDigit c = true)
    (hx : ∀ r ∈ rest.head?, r ≠ 'x' ∧ r ≠ 'X') :
    (parseInt v).isNaN = false := by
  unfold parseInt
  rw [h, trimStart_of_not_whiteSpace c rest (isDecDigit_not_whiteSpace c hc)]
  split
  · rename_i r heq
    simp only [List.cons.injEq] at heq
    obtain ⟨rfl, -⟩ := heq
    exact absurd hc (by decide)
  · rename_i r heq
    simp only [List.cons.injEq] at heq
    obtain ⟨rfl, -⟩ := heq
    exact absurd hc (by decide)
  · exact parseIntDigits_digit_start c rest hc hx

/-! ## `Number::toString` starts with a digit -/

theorem IsNumChar.ne_x {ch : Char} (h : IsNumChar ch) : ch ≠ 'x' ∧ ch ≠ 'X' := by
  rcases h with h | rfl | rfl | rfl | rfl
  · constructor <;> rintro rfl <;> exact absurd h (by decide)
  all_goals exact ⟨by decide, by decide⟩

theorem stripTrailingZeros_cons (c : Char) (cs : List Char) :
    ∃ cs', stripTrailingZeros (c :: cs) = c :: cs' ∧ ∀ x ∈ cs', x ∈ cs := by
  refine ⟨_, rfl, ?_⟩
  intro x hx
  rw [List.mem_reverse] at hx
  exact List.mem_reverse.mp ((List.dropWhile_sublist _).subset hx)

theorem exponent_chars (x : Int) :
    ∀ ch ∈ (if x < 0 then '-' else '+') :: natDigits x.natAbs, IsNumChar ch := by
  intro ch hch
  rcases List.mem_cons.mp hch with rfl | hch
  · split_ifs
    · exact Or.inr (Or.inr (Or.inr (Or.inr rfl)))
    · exact Or.inr (Or.inr (Or.inr (Or.inl rfl)))
  · exact Or.inl ((natDigits_spec _).2.1 ch hch)

theorem posToString_chars (m : Nat) (e : Int) :
    ∃ c rest, posToString m e = c :: rest ∧ isDecDigit c = true ∧ ∀ x ∈ rest, IsNumChar x := by
  obtain ⟨hne, hall, -⟩ := natDigits_spec m
  obtain ⟨c, cs, hds⟩ := List.exists_cons_of_ne_nil hne
  obtain ⟨cs', hstrip, hsub⟩ := stripTrailingZeros_cons c cs
  have hc : isDecDigit c = true := hall c (by simp [hds])
  have hcs' : ∀ x ∈ cs', IsNumChar x := fun x hx =>
    Or.inl (hall x (by rw [hds]; exact List.mem_cons_of_mem _ (hsub x hx)))
  unfold posToString
  simp only [hds, hstrip]
  generalize hn : ((c :: cs).length + e : Int) = n
  have hex := exponent_chars (n - 1)
  generalize (if n - 1 < 0 then '-' else '+') :: natDigits (n - 1).natAbs = ex at hex
  by_cases h1 : ((c :: cs').length : Int) ≤ n ∧ n ≤ 21
  · rw [if_pos h1, List.cons_append]
    refine ⟨c, _, rfl, hc, ?_⟩
    intro x hx
    rcases List.mem_append.mp hx with hx | hx
    · exact hcs' x hx
    · rw [List.eq_of_mem_replicate hx]; exact Or.inl (by decide)
  rw [if_neg h1]
  by_cases h2 : 0 < n ∧ n ≤ 21
  · rw [if_pos h2]
    obtain ⟨k, hk⟩ : ∃ k, n.toNat = k + 1 := ⟨n.toNat - 1, by have := h2.1; omega⟩
    rw [hk, List.take_succ_cons, List.drop_succ_cons, List.cons_append]
    refine ⟨c, _, rfl, hc, ?_⟩
    intro x hx
    rcases List.mem_append.mp hx with hx | hx
    · exact hcs' x (List.mem_of_mem_take hx)
    · rcases List.mem_cons.mp hx with rfl | hx
      · exact Or.inr (Or.inl rfl)
      · exact hcs' x (List.mem_of_mem_drop hx)
  rw [if_neg h2]
  by_cases h3 : -6 < n ∧ n ≤ 0
  · rw [if_pos h3]
    refine ⟨'0', _, rfl, by decide, ?_⟩
    intro x hx
    rcases List.mem_cons.mp hx with rfl | hx
    · exact Or.inr (Or.inl rfl)
    · rcases List.mem_append.mp hx with hx | hx
      · rw [List.eq_of_mem_replicate hx]; exact Or.inl (by decide)
      · rcases List.mem_cons.mp hx with rfl | hx
        · exact Or.inl hc
        · exact hcs' x hx
  rw [if_neg h3]
  cases cs' with
  | nil =>
    refine ⟨c, _, rfl, hc, ?_⟩
    intro x hx
    rcases List.mem_cons.mp hx with rfl | hx
    · exact Or.inr (Or.inr (Or.inl rfl))
    · exact hex x hx
  | cons d ds =>
    refine ⟨c, '.' :: ((d :: ds) ++ 'e' :: ex), rfl, hc, ?_⟩
    intro x hx
    rcases List.mem_cons.mp hx with rfl | hx
    · exact Or.inr (Or.inl rfl)
    · rcases List.mem_append.mp hx with hx | hx
      · exact hcs' x hx
      · rcases List.mem_cons.mp hx with rfl | hx
        · exact Or.inr (Or.inr (Or.inl rfl))
        · exact hex x hx

theorem parseInt_positive_number (m : Int) (e : Int) (hm : 0 < m) :
    (parseInt (.number (.fin ⟨m, e⟩))).isNaN = false := by
  obtain ⟨c, rest, hs, hc, hrest⟩ := posToString_chars m.natAbs e
  apply parseInt_digit_start _ c rest _ hc
  · intro r hr
    cases rest with
    | nil => simp at hr
    | cons x xs =>
      simp only [List.head?_cons, Option.mem_def, Option.some.injEq] at hr
      subst hr
      exact (hrest _ (by simp)).ne_x
  · have h0 : m ≠ 0 := by omega
    have h1 : ¬ m < 0 := by omega
    simp [JSValue.toStr, numberToString, h0, h1, hs]

/-- C5: for every integer `m` passed as a number, `isValidMTU(m)` is `true` when
`m > 0` and `false` otherwise; there is no upper bound. -/
theorem isValidMTU_integer (m : Int) :
    isValidMTU (.number (.fin ⟨m, 0⟩)) = .bool (decide (0 < m)) := by
  have hgt : (JSValue.number (.fin ⟨m, 0⟩)).toNumber.gt (JSNumber.ofNat 0) = decide (0 < m) := by
    simp [JSValue.toNumber, JSNumber.gt, JSNumber.lt, JSNumber.ofNat, Dec.lt]
  unfold isValidMTU
  rw [hgt]
  by_cases hm : 0 < m
  · simp [jsAnd, JSValue.truthy, parseInt_positive_number m 0 hm, hm]
  · simp only [hm, decide_False]
    cases h : (parseInt (.number (.fin ⟨m, 0⟩))).isNaN <;> simp [jsAnd, JSValue.truthy]

/-! ## What a match consumes -/

theorem runRep_consumes (f : List Char → List (List Char)) (P : Char → Prop)
    (hf : ∀ s rest, rest ∈ f s → ∃ pre, s = pre ++ rest ∧ ∀ c ∈ pre, P c) :
    ∀ (hi lo : Nat) (s rest : List Char), rest ∈ runRep f lo hi s →
      ∃ pre, s = pre ++ rest ∧ ∀ c ∈ pre, P c := by
  intro hi
  induction hi with
  | zero =>
    intro lo s rest h
    cases lo with
    | zero =>
      rw [mem_runRep_zero] at h
      exact ⟨[], by simp [h], by simp⟩
    | succ lo => simp [runRep] at h
  | succ hi ih =>
    intro lo s rest h
    have step : (∃ mid, mid ∈ f s ∧ rest ∈ runRep f (lo - 1) hi mid) →
        ∃ pre, s = pre ++ rest ∧ ∀ c ∈ pre, P c := by
      rintro ⟨mid, hmid, hrest⟩
      obtain ⟨p1, rfl, hp1⟩ := hf s mid hmid
      obtain ⟨p2, rfl, hp2⟩ := ih (lo - 1) mid rest hrest
      refine ⟨p1 ++ p2, by simp, ?_⟩
      intro c hc
      rcases List.mem_append.mp hc with hc | hc
      · exact hp1 c hc
      · exact hp2 c hc
    cases lo with
    | zero =>
      simp only [runRep, List.mem_cons, List.mem_flatMap] at h
      rcases h with rfl | h
      · exact ⟨[], by simp, by simp⟩
      · exact step h
    | succ lo =>
      rw [mem_runRep_succ] at h
      exact step h

theorem run_consumes (r : Regex) : ∀ (s rest : List Char), rest ∈ r.run s →
    ∃ pre, s = pre ++ rest ∧ ∀ c ∈ pre, r.accepts c = true := by
  induction r with
  | cls p =>
    intro s rest h
    obtain ⟨c, hc, rfl⟩ := (mem_run_cls p s rest).mp h
    exact ⟨[c], rfl, by simpa [Regex.accepts] using hc⟩
  | seq a b iha ihb =>
    intro s rest h
    obtain ⟨mid, hmid, hrest⟩ := (mem_run_seq a b s rest).mp h
    obtain ⟨p1, rfl, hp1⟩ := iha s mid hmid
    obtain ⟨p2, rfl, hp2⟩ := ihb mid rest hrest
    refine ⟨p1 ++ p2, by simp, ?_⟩
    intro c hc
    rcases List.mem_append.mp hc with hc | hc
    · simp [Regex.accepts, hp1 c hc]
    · simp [Regex.accepts, hp2 c hc]
  | alt a b iha ihb =>
    intro s rest h
    simp only [Regex.run, List.mem_append] at h
    rcases h with h | h
    · obtain ⟨p, hs, hp⟩ := iha s rest h
      exact ⟨p, hs, fun c hc => by simp [Regex.accepts, hp c hc]⟩
    · obtain ⟨p, hs, hp⟩ := ihb s rest h
      exact ⟨p, hs, fun c hc => by simp [Regex.accepts, hp c hc]⟩
  | rep lo hi a iha =>
    intro s rest h
    rw [mem_run_rep] at h
    exact runRep_consumes a.run (fun c => a.accepts c = true) iha hi lo s rest h
  | many1 a iha =>
    intro s rest h
    simp only [Regex.run] at h
    exact runRep_consumes a.run (fun c => a.accepts c = true) iha s.length 1 s rest h

theorem test_chars (r : Regex) (s : List Char) (h : r.test s = true) :
    ∀ c ∈ s, r.accepts c = true := by
  obtain ⟨pre, hs, hpre⟩ := run_consumes r s [] ((test_iff r s).mp h)
  intro c hc
  rw [hs, List.append_nil] at hc
  exact hpre c hc

theorem isIP_cases (ip : String) : isIP ip = 0 ∨ isIP ip = 4 ∨ isIP ip = 6 := by
  unfold isIP
  split_ifs <;> simp

/-- No IP literal holds a `/`. -/
theorem isIP_no_slash (ip : String) (h : isIP ip ≠ 0) : '/' ∉ ip.data := by
  intro hmem
  unfold isIP at h
  split_ifs at h with h4 h6
  · exact absurd (test_chars _ _ h4 '/' hmem) (by decide)
  · exact absurd (test_chars _ _ h6 '/' hmem) (by decide)
  · exact h rfl

/-! ## `split` on text with no or one separator -/

theorem splitOn_no_sep (sep : Char) (l : List Char) (h : sep ∉ l) : splitOn sep l = [l] := by
  induction l with
  | nil => rfl
  | cons c cs ih =>
    have hc : c ≠ sep := fun e => h (by simp [e])
    have hcs : sep ∉ cs := fun e => h (List.mem_cons_of_mem _ e)
    simp [splitOn, hc, ih hcs]

theorem splitOn_append (sep : Char) (l r : List Char) (h : sep ∉ l) :
    splitOn sep (l ++ sep :: r) = l :: splitOn sep r := by
  induction l with
  | nil => simp [splitOn]
  | cons c cs ih =>
    have hc : c ≠ sep := fun e => h (by simp [e])
    have hcs : sep ∉ cs := fun e => h (List.mem_cons_of_mem _ e)
    simp [splitOn, hc, ih hcs]

/-! ## Text made of decimal digits -/

theorem dropWhile_eq_self (p : Char → Bool) (l : List Char) (h : ∀ c ∈ l, p c = false) :
    l.dropWhile p = l := by
  cases l with
  | nil => rfl
  | cons c cs => simp [List.dropWhile, h c (by simp)]

theorem trim_of_no_whiteSpace (l : List Char) (h : ∀ c ∈ l, isWhiteSpace c = false) :
    trim l = l := by
  unfold trim trimStart
  rw [dropWhile_eq_self _ l h, dropWhile_eq_self _ l.reverse (fun c hc => h c (by simpa using hc))]
  simp

theorem strUnsignedDecimal_digits (ds : List Char) (hne : ds ≠ [])
    (hall : ∀ c ∈ ds, isDecDigit c = true) :
    strUnsignedDecimal ds = roundRatio (radixValue 10 ds) 1 := by
  have hinf : ds ≠ ['I', 'n', 'f', 'i', 'n', 'i', 't', 'y'] := by
    rintro rfl
    exact absurd (hall 'I' (by decide)) (by decide)
  have htake : ds.takeWhile isDecDigit = ds := List.takeWhile_eq_self_iff.mpr hall
  have hdrop : ds.dropWhile isDecDigit = [] := List.dropWhile_eq_nil_iff.mpr hall
  unfold strUnsignedDecimal
  simp [hinf, htake, hdrop, hne, exponentPart, roundDecimal_zero]

theorem stringToNumber_digits (ds : List Char) (hne : ds ≠ [])
    (hall : ∀ c ∈ ds, isDecDigit c = true) :
    stringToNumber ds = roundRatio (radixValue 10 ds) 1 := by
  unfold stringToNumber
  rw [trim_of_no_whiteSpace ds (fun c hc => isDecDigit_not_whiteSpace c (hall c hc))]
  split
  · exact absurd rfl hne
  all_goals first
    | exact strUnsignedDecimal_digits _ hne hall
    | exact absurd (hall 'x' (List.mem_cons_of_mem _ (List.mem_cons_self _ _))) (by decide)
    | exact absurd (hall 'X' (List.mem_cons_of_mem _ (List.mem_cons_self _ _))) (by decide)
    | exact absurd (hall 'o' (List.mem_cons_of_mem _ (List.mem_cons_self _ _))) (by decide)
    | exact absurd (hall 'O' (List.mem_cons_of_mem _ (List.mem_cons_self _ _))) (by decide)
    | exact absurd (hall 'b' (List.mem_cons_of_mem _ (List.mem_cons_self _ _))) (by decide)
    | exact absurd (hall 'B' (List.mem_cons_of_mem _ (List.mem_cons_self _ _))) (by decide)
    | exact absurd (hall '+' (List.mem_cons_self _ _)) (by decide)
    | exact absurd (hall '-' (List.mem_cons_self _ _)) (by decide)

theorem parseInt_digits (ds : List Char) (hne : ds ≠ [])
    (hall : ∀ c ∈ ds, isDecDigit c = true) :
    (parseInt (.string (String.mk ds))).isNaN = false := by
  obtain ⟨c, rest, rfl⟩ := List.exists_cons_of_ne_nil hne
  refine parseInt_digit_start (.string (String.mk (c :: rest))) c rest rfl (hall c (by simp)) ?_
  intro r hr
  cases rest with
  | nil => simp at hr
  | cons x xs =>
    simp only [List.head?_cons, Option.mem_def, Option.some.injEq] at hr
    subst hr
    have hx := hall x (by simp)
    constructor <;> rintro rfl <;> exact absurd hx (by decide)

theorem isDecDigit_ne_slash (ds : List Char) (hall : ∀ c ∈ ds, isDecDigit c = true) :
    '/' ∉ ds := fun h => absurd (hall _ h) (by decide)

/-- The check of `isValidCIDR` on an IP literal followed by decimal digits. -/
theorem cidrCheck_digits (ip : String) (ds : List Char) (hip : isIP ip ≠ 0) (hne : ds ≠ [])
    (hall : ∀ c ∈ ds, isDecDigit c = true) :
    cidrCheck [ip.data, ds]
      = .bool (decide (radixValue 10 ds ≤ if isIP ip = 4 then 32 else 128)) := by
  have hnum := stringToNumber_digits ds hne hall
  have hnan := parseInt_digits ds hne hall
  have hge := roundRatio_ge_zero (radixValue 10 ds) 1
  have h32 := roundRatio_nat_le (radixValue 10 ds) 32 (by decide)
  have h128 := roundRatio_nat_le (radixValue 10 ds) 128 (by decide)
  have hmk : (String.mk ip.data) = ip := rfl
  unfold cidrCheck
  simp only [partAt, List.get?, JSValue.toStr, hmk, JSValue.toNumber, hnum, hnan, hge, h32, h128]
  rcases isIP_cases ip with h | h | h
  · exact absurd h hip
  · rw [h]
    by_cases hp : radixValue 10 ds ≤ 32 <;>
      simp [jsAnd, jsOr, JSValue.truthy, JSNumber.ofNat, hp]
  · rw [h]
    by_cases hp : radixValue 10 ds ≤ 128 <;>
      simp [jsAnd, jsOr, JSValue.truthy, JSNumber.ofNat, hp]

/-- C2: for an IPv4 or IPv6 literal `ip` and a natural number `p` written in decimal
digits, `isValidCIDR(ip + '/' + p)` is `true` when `p` is at most 32 (IPv4) or 128
(IPv6) and `false` otherwise, and `isValidCIDR(ip)`, with no `/` and length, is
`false`. -/
theorem isValidCIDR_decimal_bound (ip : String) (p : Nat) (hip : isIP ip = 4 ∨ isIP ip = 6) :
    isValidCIDR (.string (ip ++ "/" ++ String.mk (natDigits p)))
      = .ok (.bool (decide (p ≤ if isIP ip = 4 then 32 else 128))) ∧
    isValidCIDR (.string ip) = .ok (.bool false) := by
  have hip0 : isIP ip ≠ 0 := by rcases hip with h | h <;> rw [h] <;> decide
  have hslash := isIP_no_slash ip hip0
  obtain ⟨hne, hall, hval⟩ := natDigits_spec p
  constructor
  · have hdata : (ip ++ "/" ++ String.mk (natDigits p)).data = ip.data ++ '/' :: natDigits p := by
      simp [String.data_append]
    simp only [isValidCIDR, hdata]
    rw [splitOn_append '/' _ _ hslash, splitOn_no_sep '/' _ (isDecDigit_ne_slash _ hall),
      cidrCheck_digits ip _ hip0 hne hall, hval]
  · simp only [isValidCIDR]
    rw [splitOn_no_sep '/' _ hslash]
    have hmk : (String.mk ip.data) = ip := rfl
    unfold cidrCheck
    simp only [partAt, List.get?, JSValue.toStr, hmk]
    rcases hip with h | h <;> rw [h] <;> simp [jsAnd, JSValue.truthy, JSNumber.ofNat]

/-- C2 at `10.0.0.1/24` and at `fe80::1/129`. -/
theorem isValidCIDR_decimal_bound_witness :
    (isValidCIDR (.string ("10.0.0.1" ++ "/" ++ String.mk (natDigits 24)))
      = .ok (.bool (decide (24 ≤ if isIP "10.0.0.1" = 4 then 32 else 128))) ∧
     isValidCIDR (.string "10.0.0.1") = .ok (.bool false)) ∧
    (isValidCIDR (.string ("fe80::1" ++ "/" ++ String.mk (natDigits 129)))
      = .ok (.bool (decide (129 ≤ if isIP "fe80::1" = 4 then 32 else 128))) ∧
     isValidCIDR (.string "fe80::1") = .ok (.bool false)) :=
  ⟨isValidCIDR_decimal_bound "10.0.0.1" 24 (Or.inl (by decide)),
   isValidCIDR_decimal_bound "fe80::1" 129 (Or.inr (by decide))⟩

/-! ## The validators as functions of any value -/

theorem jsAnd_bool (a b : Bool) : jsAnd (.bool a) (.bool b) = .bool (a && b) := by
  cases a <;> simp [jsAnd, JSValue.truthy]

theorem jsOr_bool (a b : Bool) : jsOr (.bool a) (.bool b) = .bool (a || b) := by
  cases a <;> simp [jsOr, JSValue.truthy]

theorem cidrCheck_truthy (parts : List (List Char)) (h : (cidrCheck parts).truthy = true) :
    cidrCheck parts = .bool true := by
  unfold cidrCheck at h ⊢
  simp only [jsAnd_bool, jsOr_bool] at h ⊢
  generalize JSValue.number (JSNumber.ofNat (isIP (partAt parts 0).toStr)) = n at h ⊢
  generalize (decide (partAt parts 1 ≠ JSValue.undefined) && _) = b at h ⊢
  unfold jsAnd at h ⊢
  by_cases hn : n.truthy = true
  · rw [if_pos hn] at h ⊢
    simpa [JSValue.truthy] using h
  · rw [if_neg hn] at h
    exact absurd h hn

/-- C1 (the code at the failing input): `1.2.3.4/24/x` splits into three parts, not
two, and `isValidCIDR` returns `true` on it; so it does on `1.2.3.4/8.5`, whose
second part is not an integer. -/
theorem isValidCIDR_accepts_extra_part :
    isValidCIDR (.string "1.2.3.4/24/x") = .ok (.bool true) ∧
    splitOn '/' "1.2.3.4/24/x".data = ["1.2.3.4".data, "24".data, "x".data] ∧
    isValidCIDR (.string "1.2.3.4/8.5") = .ok (.bool true) := by
  exact ⟨rfl, rfl, rfl⟩

/-- C6 (counterexample): `isValidCIDR(undefined)` and `isValidCIDR(24)` raise a
`TypeError`, and `isValidCIDR('invalid_ip')` returns the number 0, not `false`. -/
theorem isValidCIDR_raises_and_returns_zero :
    isValidCIDR .undefined
      = .error ⟨.typeError, "Cannot read properties of undefined (reading 'split')"⟩ ∧
    isValidCIDR (.number (JSNumber.ofNat 24))
      = .error ⟨.typeError, "cidr.split is not a function"⟩ ∧
    isValidCIDR (.string "invalid_ip") = .ok (.number (JSNumber.ofNat 0)) := by
  exact ⟨rfl, rfl, rfl⟩

/-- C6 (as amended): on every primitive value `isValidMTU` and `isValidMACAddress`
return `true` or `false`; on every string `isValidCIDR` returns without raising,
and a truthy result of it is the boolean `true`; on a value that is not a string
`isValidCIDR` raises a `TypeError`. -/
theorem validators_on_any_value (v : JSValue) (s : String) :
    (∃ b, isValidMTU v = .bool b) ∧
    (∃ b, isValidMACAddress v = .bool b) ∧
    (∃ r, isValidCIDR (.string s) = .ok r ∧ (r.truthy = true → r = .bool true)) ∧
    ((∀ t, v ≠ .string t) → ∃ e, isValidCIDR v = .error e ∧ e.kind = .typeError) := by
  refine ⟨⟨_, jsAnd_bool _ _⟩, ⟨_, rfl⟩, ⟨_, rfl, cidrCheck_truthy _⟩, ?_⟩
  intro hv
  cases v with
  | string t => exact absurd rfl (hv t)
  | undefined => exact ⟨_, rfl, rfl⟩
  | null => exact ⟨_, rfl, rfl⟩
  | bool b => exact ⟨_, rfl, rfl⟩
  | number n => exact ⟨_, rfl, rfl⟩

/-! ## Rejections before any invocation -/

/-- C7: for a string `cidr` on which `isValidCIDR` returns a falsy value, `addr.add`
and `addr.remove` reject with the message `Invalid IP CIDR: ` followed by `cidr`,
and no command line reaches the external tool. -/
theorem invalid_cidr_rejected_before_exec (tool : Tool) (name : JSValue) (cidr : String)
    (v : JSValue) (hv : isValidCIDR (.string cidr) = .ok v) (hfalsy : v.truthy = false) :
    Addresses.add tool name (.string cidr)
      = ⟨[], .rejected ⟨.error, "Invalid IP CIDR: " ++ cidr⟩⟩ ∧
    Addresses.remove tool name (.string cidr)
      = ⟨[], .rejected ⟨.error, "Invalid IP CIDR: " ++ cidr⟩⟩ := by
  constructor
  · simp [Addresses.add, hv, hfalsy, PromiseState.reject, mkError, JSValue.toStr]
  · simp [Addresses.remove, hv, hfalsy, PromiseState.reject, mkError, JSValue.toStr]

/-- C7 at `300.1.1.1/24`, on which `isValidCIDR` returns 0. -/
theorem invalid_cidr_rejected_before_exec_witness :
    Addresses.add (fun _ => ⟨none, "", ""⟩) (.string "eth0") (.string "300.1.1.1/24")
      = ⟨[], .rejected ⟨.error, "Invalid IP CIDR: " ++ "300.1.1.1/24"⟩⟩ ∧
    Addresses.remove (fun _ => ⟨none, "", ""⟩) (.string "eth0") (.string "300.1.1.1/24")
      = ⟨[], .rejected ⟨.error, "Invalid IP CIDR: " ++ "300.1.1.1/24"⟩⟩ :=
  invalid_cidr_rejected_before_exec (fun _ => ⟨none, "", ""⟩) (.string "eth0") "300.1.1.1/24"
    (.number (JSNumber.ofNat 0)) (by rfl) (by decide)

/-- C8: `link.setState` with a state other than the string `up` or the string
`down` rejects with `Invalid state: ` followed by the value and hands no command
line to the external tool; with `up` or `down` it hands over exactly one. -/
theorem setState_only_up_or_down (tool : Tool) (name state : JSValue) :
    (state ≠ .string "up" ∧ state ≠ .string "down" →
      Link.setState tool name state
        = ⟨[], .rejected ⟨.error, "Invalid state: " ++ state.toStr⟩⟩) ∧
    (state = .string "up" ∨ state = .string "down" →
      (Link.setState tool name state).commands
        = ["ip link set " ++ name.toStr ++ " " ++ state.toStr]) := by
  constructor
  · intro h
    simp [Link.setState, h, PromiseState.reject, mkError]
  · intro h
    rcases h with h | h <;> subst h <;> simp [Link.setState]

/-- C8 at `UP` and at ` up`, both rejected, and at `down`, handed over once. -/
theorem setState_only_up_or_down_witness :
    Link.setState (fun _ => ⟨none, "", ""⟩) (.string "eth0") (.string "UP")
      = ⟨[], .rejected ⟨.error, "Invalid state: UP"⟩⟩ ∧
    Link.setState (fun _ => ⟨none, "", ""⟩) (.string "eth0") (.string " up")
      = ⟨[], .rejected ⟨.error, "Invalid state:  up"⟩⟩ ∧
    (Link.setState (fun _ => ⟨none, "", ""⟩) (.string "eth0") (.string "down")).commands
      = ["ip link set eth0 down"] :=
  ⟨(setState_only_up_or_down _ _ _).1 (by decide),
   (setState_only_up_or_down _ _ _).1 (by decide),
   (setState_only_up_or_down _ _ _).2 (Or.inr rfl)⟩

/-- C9 (the code at the failing input): `link.setMac` with the invalid address
`invalid_mac` rejects with `Invalid Mac Address invalid_mac`, and the command line
is handed to the external tool all the same. -/
theorem setMac_invalid_still_invokes :
    Link.setMac (fun _ => ⟨none, "", ""⟩) (.string "eth0") (.string "invalid_mac")
      = ⟨["ip link set dev eth0 address invalid_mac"],
         .rejected ⟨.error, "Invalid Mac Address invalid_mac"⟩⟩ := by
  decide

/-- C10: `link.setMTU` with a value on which `isValidMTU` returns `false` rejects
with `Invalid MTU value: ` followed by the value, and hands no command line to the
external tool. -/
theorem setMTU_invalid_rejected_before_exec (tool : Tool) (name mtu : JSValue)
    (h : isValidMTU mtu = .bool false) :
    Link.setMTU tool name mtu
      = ⟨[], .rejected ⟨.error, "Invalid MTU value: " ++ mtu.toStr⟩⟩ := by
  simp [Link.setMTU, h, JSValue.truthy, PromiseState.reject, mkError]

/-- C10 at a non-numeric string, at 0, at -5, and at the string `1e-400`, which
`parseInt` reads as 1 and whose Number value is 0. -/
theorem setMTU_invalid_rejected_before_exec_witness :
    Link.setMTU (fun _ => ⟨none, "", ""⟩) (.string "eth0") (.string "invalid_mtu")
      = ⟨[], .rejected ⟨.error, "Invalid MTU value: invalid_mtu"⟩⟩ ∧
    Link.setMTU (fun _ => ⟨none, "", ""⟩) (.string "eth0") (.number (JSNumber.ofNat 0))
      = ⟨[], .rejected ⟨.error, "Invalid MTU value: 0"⟩⟩ ∧
    Link.setMTU (fun _ => ⟨none, "", ""⟩) (.string "eth0") (.number (.fin ⟨-5, 0⟩))
      = ⟨[], .rejected ⟨.error, "Invalid MTU value: -5"⟩⟩ ∧
    Link.setMTU (fun _ => ⟨none, "", ""⟩) (.string "eth0") (.string "1e-400")
      = ⟨[], .rejected ⟨.error, "Invalid MTU value: 1e-400"⟩⟩ :=
  ⟨setMTU_invalid_rejected_before_exec _ _ _ (by decide),
   setMTU_invalid_rejected_before_exec _ _ _ (by decide),
   setMTU_invalid_rejected_before_exec _ _ _ (by decide),
   setMTU_invalid_rejected_before_exec _ _ _ (by decide!)⟩

/-! ## Diagnostics of the address operations -/

theorem truthy_string_iff (s : String) : (JSValue.string s).truthy = true ↔ s ≠ "" := by
  simp [JSValue.truthy, String.ext_iff]

theorem toStr_string (s : String) : (JSValue.string s).toStr = s := rfl

theorem includes_nonempty (e sub : String) (hsub : sub ≠ "") (h : includes e sub = true) :
    e ≠ "" := by
  rintro rfl
  have hs : sub.data ≠ [] := fun hd => hsub (String.ext hd)
  obtain ⟨c, cs, hcs⟩ := List.exists_cons_of_ne_nil hs
  simp [includes, hcs, List.isPrefixOf] at h

/-- C15: for a cidr `isValidCIDR` accepts and a non-empty diagnostic `e` on standard
error, `addr.add(n, cidr)` rejects with `Cannot find device ` + `n` when `e` contains
`Cannot find device`, otherwise with `IP Address already exists on interface` when
`e` contains `File exists`, otherwise with `Error adding IP address: ` + `e`. -/
theorem addr_add_diagnostic_classified (tool : Tool) (n : JSValue) (cidr : String)
    (v : JSValue) (e : String)
    (hv : isValidCIDR (.string cidr) = .ok v) (hvalid : v.truthy = true)
    (he : (tool ("ip address add " ++ cidr ++ " dev " ++ n.toStr)).stderr = e)
    (hne : e ≠ "") :
    (Addresses.add tool n (.string cidr)).promise = .rejected (mkError
      (if includes e "Cannot find device" then "Cannot find device " ++ n.toStr
       else if includes e "File exists" then "IP Address already exists on interface"
       else "Error adding IP address: " ++ e)) := by
  have ht : (JSValue.string e).truthy = true := (truthy_string_iff e).mpr hne
  simp only [Addresses.add, hv, hvalid, toStr_string, he, ht, Bool.not_true, if_true,
    Bool.false_eq_true, if_false]
  split_ifs <;> rfl

/-- C15 at a diagnostic that contains both phrases: it is classified as
device-not-found; and at the cidr `1.2.3.4/32.000000000000001`, whose length has the
Number value 32 and which `isValidCIDR` accepts. -/
theorem addr_add_diagnostic_classified_witness :
    (Addresses.add (fun _ => ⟨none, "", "File exists; Cannot find device eth9"⟩)
        (.string "eth9") (.string "172.16.17.1/32")).promise
      = .rejected (mkError "Cannot find device eth9") ∧
    (Addresses.add (fun _ => ⟨none, "", "RTNETLINK answers: File exists\n"⟩)
        (.string "eth0") (.string "1.2.3.4/32.000000000000001")).promise
      = .rejected (mkError "IP Address already exists on interface") :=
  ⟨addr_add_diagnostic_classified (fun _ => ⟨none, "", "File exists; Cannot find device eth9"⟩)
    (.string "eth9") "172.16.17.1/32" (.bool true) "File exists; Cannot find device eth9"
    (by rfl) (by decide) (by rfl) (by decide),
   addr_add_diagnostic_classified (fun _ => ⟨none, "", "RTNETLINK answers: File exists\n"⟩)
    (.string "eth0") "1.2.3.4/32.000000000000001" (.bool true)
    "RTNETLINK answers: File exists\n" (by rfl) (by decide) (by rfl) (by decide)⟩

/-- C16: for a cidr `isValidCIDR` accepts and a non-empty diagnostic `e` on standard
error, `addr.remove(n, cidr)` rejects with `Cannot find device ` + `n` when `e`
contains `Cannot find device`, otherwise with `IP Address does not exist on
interface` when `e` contains `Cannot assign requested address`, otherwise with
`Error removing IP address: ` + `e`, the diagnostic unchanged. -/
theorem addr_remove_diagnostic_classified (tool : Tool) (n : JSValue) (cidr : String)
    (v : JSValue) (e : String)
    (hv : isValidCIDR (.string cidr) = .ok v) (hvalid : v.truthy = true)
    (he : (tool ("ip address del " ++ cidr ++ " dev " ++ n.toStr)).stderr = e)
    (hne : e ≠ "") :
    (Addresses.remove tool n (.string cidr)).promise = .rejected (mkError
      (if includes e "Cannot find device" then "Cannot find device " ++ n.toStr
       else if includes e "Cannot assign requested address" then
         "IP Address does not exist on interface"
       else "Error removing IP address: " ++ e)) := by
  have ht : (JSValue.string e).truthy = true := (truthy_string_iff e).mpr hne
  simp only [Addresses.remove, hv, hvalid, toStr_string, he, ht, Bool.not_true, if_true,
    Bool.false_eq_true, if_false]
  split_ifs <;> rfl

/-- C16 at a diagnostic that matches no phrase: the message carries it unchanged;
and at the cidr of `1.2.3.4` and the length `-1e-400`, whose Number value is 0 and
which `isValidCIDR` accepts. -/
theorem addr_remove_diagnostic_classified_witness :
    (Addresses.remove (fun _ => ⟨none, "", "RTNETLINK answers: Operation not permitted\n"⟩)
        (.string "eth0") (.string "172.16.17.2/32")).promise
      = .rejected (mkError
          "Error removing IP address: RTNETLINK answers: Operation not permitted\n") ∧
    (Addresses.remove
        (fun _ => ⟨none, "", "RTNETLINK answers: Cannot assign requested address\n"⟩)
        (.string "eth0") (.string "1.2.3.4/-1e-400")).promise
      = .rejected (mkError "IP Address does not exist on interface") :=
  ⟨addr_remove_diagnostic_classified
    (fun _ => ⟨none, "", "RTNETLINK answers: Operation not permitted\n"⟩)
    (.string "eth0") "172.16.17.2/32" (.bool true)
    "RTNETLINK answers: Operation not permitted\n" (by rfl) (by decide) (by rfl) (by decide),
   addr_remove_diagnostic_classified
    (fun _ => ⟨none, "", "RTNETLINK answers: Cannot assign requested address\n"⟩)
    (.string "eth0") "1.2.3.4/-1e-400" (.bool true)
    "RTNETLINK answers: Cannot assign requested address\n"
    (congrArg Except.ok (by decide! : cidrCheck (splitOn '/' "1.2.3.4/-1e-400".data) = .bool true))
    (by decide) (by rfl) (by decide)⟩

/-! ## Diagnostics of `addr.show` -/

/-- What `addr.show` does with a named interface once the tool has answered with a
non-empty diagnostic: one command, and a rejection by the diagnostic's text. -/
theorem addr_show_on_diagnostic (tool : Tool) (n cmd e : String)
    (hcmd : (Addresses.show tool (.string n)).commands = [cmd])
    (he : (tool cmd).stderr = e) (hne : e ≠ "") :
    (Addresses.show tool (.string n)).promise = .rejected (mkError
      (if includes e "Cannot find device" then "Cannot find device " ++ n
       else "Error retrieving network interfaces: " ++ e)) := by
  have ht : (JSValue.string e).truthy = true := (truthy_string_iff e).mpr hne
  have hd : withDefault (.string n) (.string "") = .string n := by simp [withDefault]
  unfold Addresses.show at hcmd ⊢
  simp only [hd, callTrim, toStr_string] at hcmd ⊢
  by_cases hn : (JSValue.string n).truthy = true
  · simp only [hn, if_true] at hcmd ⊢
    have hc : "ip -j address show " ++ String.mk (trim n.data) = cmd := by
      split_ifs at hcmd <;> first | simpa using hcmd | (split at hcmd <;> simpa using hcmd)
    rw [hc, he]
    simp only [ht, if_true]
    split_ifs <;> rfl
  · simp only [hn, Bool.false_eq_true, if_false] at hcmd ⊢
    have hc : "ip -j address" = cmd := by
      split_ifs at hcmd <;> first | simpa using hcmd | (split at hcmd <;> simpa using hcmd)
    rw [hc, he]
    simp only [ht, if_true]
    split_ifs <;> rfl

/-- C17 (as amended): when the diagnostic of `addr.show(n)` contains the phrase
`Cannot find device`, the call rejects with `Cannot find device ` followed by `n`;
the phrase `does not exist` plays no part. -/
theorem addr_show_device_not_found (tool : Tool) (n cmd e : String)
    (hcmd : (Addresses.show tool (.string n)).commands = [cmd])
    (he : (tool cmd).stderr = e) (hfind : includes e "Cannot find device" = true) :
    (Addresses.show tool (.string n)).promise
      = .rejected (mkError ("Cannot find device " ++ n)) := by
  rw [addr_show_on_diagnostic tool n cmd e hcmd he
    (includes_nonempty e "Cannot find device" (by decide) hfind), if_pos hfind]

/-- C17 at the diagnostic `Cannot find device "eth9"` for the name `eth9`. -/
theorem addr_show_device_not_found_witness :
    (Addresses.show (fun _ => ⟨none, "", "Cannot find device \"eth9\"\n"⟩)
        (.string "eth9")).promise
      = .rejected (mkError "Cannot find device eth9") :=
  addr_show_device_not_found (fun _ => ⟨none, "", "Cannot find device \"eth9\"\n"⟩)
    "eth9" "ip -j address show eth9" "Cannot find device \"eth9\"\n" (by rfl) (by rfl)
    (by decide)

/-- C17 (counterexample): the diagnostic `Device "nonexistent" does not exist.`
contains `does not exist`, and `addr.show('nonexistent')` rejects with the generic
`Error retrieving network interfaces: ` message, not with `Cannot find device
nonexistent`. -/
theorem addr_show_does_not_exist_is_generic :
    includes "Device \"nonexistent\" does not exist.\n" "does not exist" = true ∧
    (Addresses.show (fun _ => ⟨none, "", "Device \"nonexistent\" does not exist.\n"⟩)
        (.string "nonexistent")).promise
      = .rejected (mkError
          "Error retrieving network interfaces: Device \"nonexistent\" does not exist.\n") :=
  ⟨by decide, by rfl⟩

/-- C18: for a non-empty diagnostic `e` that does not contain `Cannot find device`,
`addr.show(n)` rejects with `Error retrieving network interfaces: ` followed by `e`
unchanged. -/
theorem addr_show_generic_diagnostic (tool : Tool) (n cmd e : String)
    (hcmd : (Addresses.show tool (.string n)).commands = [cmd])
    (he : (tool cmd).stderr = e) (hne : e ≠ "")
    (hfind : includes e "Cannot find device" = false) :
    (Addresses.show tool (.string n)).promise
      = .rejected (mkError ("Error retrieving network interfaces: " ++ e)) := by
  rw [addr_show_on_diagnostic tool n cmd e hcmd he hne, hfind]
  rfl

/-- C18 at the name `nonexistent` and the diagnostic of the repository's test. -/
theorem addr_show_generic_diagnostic_witness :
    (Addresses.show (fun _ => ⟨none, "", "Device \"nonexistent\" does not exist.\n"⟩)
        (.string "nonexistent")).promise
      = .rejected (mkError ("Error retrieving network interfaces: " ++
          "Device \"nonexistent\" does not exist.\n")) :=
  addr_show_generic_diagnostic
    (fun _ => ⟨none, "", "Device \"nonexistent\" does not exist.\n"⟩)
    "nonexistent" "ip -j address show nonexistent" "Device \"nonexistent\" does not exist.\n"
    (by rfl) (by rfl) (by decide) (by decide)

/-! ## An execution error with no diagnostic -/

/-- C19 (the code at the failing input): with an execution error and empty
standard error, each of the seven address and link setters resolves. -/
theorem setters_resolve_on_silent_failure :
    (Addresses.add (fun _ => ⟨some ⟨.error, "Command failed"⟩, "", ""⟩)
        (.string "eth0") (.string "10.0.0.1/24")).promise = .resolved .undefined ∧
    (Addresses.remove (fun _ => ⟨some ⟨.error, "Command failed"⟩, "", ""⟩)
        (.string "eth0") (.string "10.0.0.1/24")).promise = .resolved .undefined ∧
    (Addresses.flush (fun _ => ⟨some ⟨.error, "Command failed"⟩, "", ""⟩)
        (.string "eth0")).promise = .resolved .undefined ∧
    (Link.setState (fun _ => ⟨some ⟨.error, "Command failed"⟩, "", ""⟩)
        (.string "eth0") (.string "up")).promise = .resolved .undefined ∧
    (Link.setMTU (fun _ => ⟨some ⟨.error, "Command failed"⟩, "", ""⟩)
        (.string "eth0") (.number (JSNumber.ofNat 1500))).promise = .resolved .undefined ∧
    (Link.rename (fun _ => ⟨some ⟨.error, "Command failed"⟩, "", ""⟩)
        (.string "eth0") (.string "eth1")).promise = .resolved .undefined ∧
    (Link.setMac (fun _ => ⟨some ⟨.error, "Command failed"⟩, "", ""⟩)
        (.string "eth0") (.string "00:11:22:33:44:55")).promise = .resolved .undefined := by
  refine ⟨by decide, by decide, by decide, by decide, by decide, by decide, by decide⟩

/-! ## `neigh.flush` -/

/-- C20: `neigh.flush` hands one command to the tool and resolves with no value
exactly when the tool reports no execution error and an empty standard error;
otherwise it rejects with `Error flushing network neighbors: ` followed by the
diagnostic when there is one, and by the message of the execution error when the
diagnostic is empty. -/
theorem neigh_flush_outcome (tool : Tool) (name : JSValue) :
    ∃ cmd, (Neighbors.flush tool name).commands = [cmd] ∧
      ((Neighbors.flush tool name).promise = .resolved .undefined ↔
        (tool cmd).error = none ∧ (tool cmd).stderr = "") ∧
      ((tool cmd).stderr ≠ "" → (Neighbors.flush tool name).promise
        = .rejected (mkError ("Error flushing network neighbors: " ++ (tool cmd).stderr))) ∧
      (∀ err, (tool cmd).error = some err → (tool cmd).stderr = "" →
        (Neighbors.flush tool name).promise
          = .rejected (mkError ("Error flushing network neighbors: " ++ err.message))) := by
  refine ⟨Neighbors.flushCommand (withDefault name (.string "")), rfl, ?_⟩
  simp only [Neighbors.flush, Neighbors.settle]
  generalize tool (Neighbors.flushCommand (withDefault name (.string ""))) = r
  by_cases hs : r.stderr = ""
  · have ht : (JSValue.string "").truthy = false := by decide
    cases hr : r.error with
    | none => simp [ht, hs, PromiseState.resolve]
    | some err => simp [ht, hs, PromiseState.reject]
  · have ht : (JSValue.string r.stderr).truthy = true := (truthy_string_iff _).mpr hs
    cases hr : r.error <;> simp [ht, hs, PromiseState.reject]

/-- C20 at a call with no name: the command is `ip neigh flush all`, and an
execution error with empty standard error rejects with the error's message. -/
theorem neigh_flush_outcome_example :
    Neighbors.flush (fun _ => ⟨some ⟨.error, "Command failed: ip neigh flush all"⟩, "", ""⟩)
        .undefined
      = ⟨["ip neigh flush all"], .rejected (mkError
          "Error flushing network neighbors: Command failed: ip neigh flush all")⟩ ∧
    Neighbors.flush (fun _ => ⟨none, "", ""⟩) (.string "eth0")
      = ⟨["ip neigh flush dev eth0"], .resolved .undefined⟩ := by
  exact ⟨by decide, by decide⟩

/-! ## The neighbor operations -/

theorem includesType_eq_false (type : JSValue)
    (h : ∀ t ∈ Neighbors.validTypes, type ≠ .string t) : Neighbors.includesType type = false := by
  cases type with
  | string s =>
    simp only [Neighbors.includesType]
    rw [← Bool.not_eq_true]
    intro hm
    exact h s (by simpa using hm) rfl
  | _ => rfl

/-- A command of `add` or `update` is handed over only after the function bound to
`isValidIP` has returned a truthy value and `isValidMACAddress` has returned true. -/
theorem neigh_mutate_checked (validIP : JSValue → Except JSError JSValue)
    (verb failure : String) (tool : Tool) (ip mac iface type : JSValue)
    (h : (Neighbors.mutate validIP verb failure tool ip mac iface type).commands ≠ []) :
    (∃ v, validIP ip = .ok v ∧ v.truthy = true) ∧ (isValidMACAddress mac).truthy = true := by
  unfold Neighbors.mutate at h
  simp only [] at h
  by_cases h1 : (!ip.truthy || !mac.truthy || !iface.truthy ||
      !Neighbors.includesType (withDefault type (.string "permanent"))) = true
  · rw [if_pos h1] at h
    exact absurd rfl h
  · rw [if_neg h1] at h
    cases hv : validIP ip with
    | error e =>
      rw [hv] at h
      exact absurd rfl h
    | ok v =>
      rw [hv] at h
      simp only [] at h
      by_cases h2 : (!v.truthy) = true
      · rw [if_pos h2] at h
        exact absurd rfl h
      · rw [if_neg h2] at h
        by_cases h3 : (!(isValidMACAddress mac).truthy) = true
        · rw [if_pos h3] at h
          exact absurd rfl h
        · exact ⟨⟨v, rfl, by simpa using h2⟩, by simpa using h3⟩

/-- C11 (the code at the failing input): with a valid IP literal, a valid MAC, a
name and the type `permanent`, and a tool that reports no error, `neigh.add`,
`neigh.update` and `neigh.remove` reject with the `TypeError` of calling
`isValidIP`, and hand no command to the tool. -/
theorem neigh_valid_call_raises :
    isIP "192.168.100.100" = 4 ∧
    isValidMACAddress (.string "00:11:22:33:44:55") = .bool true ∧
    Neighbors.add (fun _ => ⟨none, "", ""⟩) (.string "192.168.100.100")
        (.string "00:11:22:33:44:55") (.string "eth0") (.string "permanent")
      = ⟨[], .rejected ⟨.typeError, "isValidIP is not a function"⟩⟩ ∧
    Neighbors.update (fun _ => ⟨none, "", ""⟩) (.string "192.168.100.100")
        (.string "00:11:22:33:44:55") (.string "eth0") (.string "permanent")
      = ⟨[], .rejected ⟨.typeError, "isValidIP is not a function"⟩⟩ ∧
    Neighbors.remove (fun _ => ⟨none, "", ""⟩) (.string "192.168.100.100") (.string "eth0")
      = ⟨[], .rejected ⟨.typeError, "isValidIP is not a function"⟩⟩ := by
  refine ⟨by decide, by decide, by decide, by decide, by decide⟩

/-- C12 (the code at the failing input): with the invalid IP `192.168.300.300` and
the other arguments valid, `neigh.add`, `neigh.update` and `neigh.remove` reject
with the `TypeError` of calling `isValidIP`, not with `Invalid IP address: `
followed by the IP. -/
theorem neigh_invalid_ip_raises :
    isIP "192.168.300.300" = 0 ∧
    Neighbors.add (fun _ => ⟨none, "", ""⟩) (.string "192.168.300.300")
        (.string "00:11:22:33:44:55") (.string "eth0") .undefined
      = ⟨[], .rejected ⟨.typeError, "isValidIP is not a function"⟩⟩ ∧
    Neighbors.update (fun _ => ⟨none, "", ""⟩) (.string "192.168.300.300")
        (.string "00:11:22:33:44:55") (.string "eth0") .undefined
      = ⟨[], .rejected ⟨.typeError, "isValidIP is not a function"⟩⟩ ∧
    Neighbors.remove (fun _ => ⟨none, "", ""⟩) (.string "192.168.300.300") (.string "eth0")
      = ⟨[], .rejected ⟨.typeError, "isValidIP is not a function"⟩⟩ := by
  refine ⟨by decide, by decide, by decide, by decide⟩

/-- C13: when the IP, the MAC or the interface name is missing or empty (falsy), or
a type is supplied that is not one of the seven valid types, `neigh.add` and
`neigh.update` reject with the fixed message that begins `Invalid parameters:` and
hand no command to the tool; an omitted type is the type `permanent`. -/
theorem neigh_invalid_parameters (tool : Tool) (ip mac iface type : JSValue)
    (h : ip.truthy = false ∨ mac.truthy = false ∨ iface.truthy = false ∨
      (type ≠ .undefined ∧ ∀ t ∈ Neighbors.validTypes, type ≠ .string t)) :
    Neighbors.add tool ip mac iface type
      = ⟨[], .rejected (mkError Neighbors.invalidParameters)⟩ ∧
    Neighbors.update tool ip mac iface type
      = ⟨[], .rejected (mkError Neighbors.invalidParameters)⟩ ∧
    "Invalid parameters:".data.isPrefixOf Neighbors.invalidParameters.data = true ∧
    Neighbors.add tool ip mac iface .undefined
      = Neighbors.add tool ip mac iface (.string "permanent") ∧
    Neighbors.update tool ip mac iface .undefined
      = Neighbors.update tool ip mac iface (.string "permanent") := by
  have hcheck : (!ip.truthy || !mac.truthy || !iface.truthy ||
      !Neighbors.includesType (withDefault type (.string "permanent"))) = true := by
    rcases h with h | h | h | ⟨hu, ht⟩
    · simp [h]
    · simp [h]
    · simp [h]
    · have hd : withDefault type (.string "permanent") = type := by simp [withDefault, hu]
      simp [hd, includesType_eq_false type ht]
  refine ⟨?_, ?_, by decide, rfl, rfl⟩
  · simp only [Neighbors.add, Neighbors.mutate, hcheck, if_true]
    rfl
  · simp only [Neighbors.update, Neighbors.mutate, hcheck, if_true]
    rfl

/-- C13 at an empty IP, and at the type `bogus`. -/
theorem neigh_invalid_parameters_witness :
    (Neighbors.add (fun _ => ⟨none, "", ""⟩) (.string "") (.string "00:11:22:33:44:55")
        (.string "eth0") .undefined
      = ⟨[], .rejected (mkError Neighbors.invalidParameters)⟩) ∧
    (Neighbors.update (fun _ => ⟨none, "", ""⟩) (.string "192.168.100.100")
        (.string "00:11:22:33:44:55") (.string "eth0") (.string "bogus")
      = ⟨[], .rejected (mkError Neighbors.invalidParameters)⟩) :=
  ⟨(neigh_invalid_parameters _ _ _ _ _ (Or.inl (by decide))).1,
   (neigh_invalid_parameters _ _ _ _ _
      (Or.inr (Or.inr (Or.inr ⟨by decide, by decide⟩)))).2.1⟩

/-- C14: whatever function the name `isValidIP` is bound to, so long as it accepts
IP literals only, every command `neigh.add` or `neigh.update` hands to the tool is
for an IP that is a valid IPv4 or IPv6 literal and a MAC that `isValidMACAddress`
accepts.  The two operations are `mutate` at the binding of line 2, which accepts
nothing, so in this code they hand over no command at all. -/
theorem neigh_command_only_after_validation (validIP : JSValue → Except JSError JSValue)
    (verb failure : String) (tool : Tool) (ip mac iface type : JSValue) (cmd : String)
    (hsound : ∀ x v, validIP x = .ok v → v.truthy = true → isIP x.toStr ≠ 0)
    (hcmd : cmd ∈ (Neighbors.mutate validIP verb failure tool ip mac iface type).commands) :
    isIP ip.toStr ≠ 0 ∧ isValidMACAddress mac = .bool true ∧
    (Neighbors.add tool ip mac iface type).commands = [] ∧
    (Neighbors.update tool ip mac iface type).commands = [] := by
  obtain ⟨⟨v, hv, hvt⟩, hm⟩ := neigh_mutate_checked validIP verb failure tool ip mac iface type
    (List.ne_nil_of_mem hcmd)
  refine ⟨hsound ip v hv hvt, ?_, ?_, ?_⟩
  · simpa [isValidMACAddress, JSValue.truthy] using hm
  · by_contra hne
    obtain ⟨⟨w, hw, -⟩, -⟩ := neigh_mutate_checked Neighbors.isValidIP _ _ tool ip mac iface type hne
    simp [Neighbors.isValidIP] at hw
  · by_contra hne
    obtain ⟨⟨w, hw, -⟩, -⟩ := neigh_mutate_checked Neighbors.isValidIP _ _ tool ip mac iface type hne
    simp [Neighbors.isValidIP] at hw

/-- C14 at a binding of `isValidIP` that accepts exactly the IP literals: the
command for `192.168.100.100` and `00:11:22:33:44:55` is handed over, and both
pass validation. -/
theorem neigh_command_only_after_validation_witness :
    isIP "192.168.100.100" ≠ 0 ∧
    isValidMACAddress (.string "00:11:22:33:44:55") = .bool true ∧
    (Neighbors.add (fun _ => ⟨none, "", ""⟩) (.string "192.168.100.100")
      (.string "00:11:22:33:44:55") (.string "eth0") .undefined).commands = [] ∧
    (Neighbors.update (fun _ => ⟨none, "", ""⟩) (.string "192.168.100.100")
      (.string "00:11:22:33:44:55") (.string "eth0") .undefined).commands = [] :=
  neigh_command_only_after_validation
    (fun x => .ok (.bool (decide (isIP x.toStr ≠ 0)))) "add" "Error adding network neighbor: "
    (fun _ => ⟨none, "", ""⟩) (.string "192.168.100.100") (.string "00:11:22:33:44:55")
    (.string "eth0") .undefined
    "ip neigh add 192.168.100.100 lladdr 00:11:22:33:44:55 dev eth0 nud permanent"
    (by
      intro x v hv hvt
      simp only [Except.ok.injEq] at hv
      subst hv
      simpa [JSValue.truthy] using hvt)
    (by decide)

/-! ## The queries -/

theorem truthy_string_false_iff (s : String) : (JSValue.string s).truthy = false ↔ s = "" := by
  rw [← Bool.not_eq_true, truthy_string_iff]
  simp

/-- `addr.show` on a name that is a string: one command, and the promise by the
tool's answer to it. -/
theorem addr_show_string (tool : Tool) (n : String) :
    Addresses.show tool (.string n) = ⟨[addrShowCommand n],
      queryPromise (tool (addrShowCommand n))
        (if includes (tool (addrShowCommand n)).stderr "Cannot find device" then
          .rejected (mkError ("Cannot find device " ++ n))
         else .rejected (mkError ("Error retrieving network interfaces: " ++
          (tool (addrShowCommand n)).stderr)))
        "Error parsing network interfaces: "⟩ := by
  have hd : withDefault (.string n) (.string "") = .string n := by simp [withDefault]
  unfold Addresses.show queryPromise addrShowCommand
  simp only [hd, callTrim, toStr_string]
  by_cases hn : n = ""
  · subst hn
    have ht : (JSValue.string "").truthy = false := rfl
    simp only [ht, ne_eq, not_true_eq_false, if_false, Bool.false_eq_true]
    split_ifs <;> first | rfl | (split <;> rfl)
  · have ht : (JSValue.string n).truthy = true := (truthy_string_iff n).mpr hn
    simp only [ht, hn, ne_eq, not_false_eq_true, if_true]
    split_ifs <;> first | rfl | (split <;> rfl)

/-- `neigh.show` on a name that is a string. -/
theorem neigh_show_string (tool : Tool) (n : String) :
    Neighbors.show tool (.string n) = ⟨[neighShowCommand n],
      queryPromise (tool (neighShowCommand n))
        (.rejected (mkError ("Error retrieving network neighbors: " ++
          (tool (neighShowCommand n)).stderr)))
        "Error parsing network neighbors: "⟩ := by
  have hd : withDefault (.string n) (.string "") = .string n := by simp [withDefault]
  unfold Neighbors.show queryPromise neighShowCommand
  simp only [hd, callTrim, toStr_string]
  by_cases hn : n = ""
  · subst hn
    have ht : (JSValue.string "").truthy = false := rfl
    simp only [ht, ne_eq, not_true_eq_false, if_false, Bool.false_eq_true]
    split_ifs <;> first | rfl | (split <;> rfl)
  · have ht : (JSValue.string n).truthy = true := (truthy_string_iff n).mpr hn
    simp only [ht, hn, ne_eq, not_false_eq_true, if_true]
    split_ifs <;> first | rfl | (split <;> rfl)

/-- `link.show`. -/
theorem link_show_eq (tool : Tool) :
    Link.show tool = ⟨["ip -j link show"],
      queryPromise (tool "ip -j link show")
        (.rejected (mkError ("Error retrieving network links: " ++
          (tool "ip -j link show").stderr)))
        "Error parsing network links: "⟩ := by
  unfold Link.show queryPromise
  simp only []
  split_ifs <;> first | rfl | (split <;> rfl)

theorem queryPromise_of_diagnostic (r : ExecResult) (d : QueryPromise) (f : String)
    (h : r.stderr ≠ "") : queryPromise r d f = d := by
  simp [queryPromise, (truthy_string_iff r.stderr).mpr h]

theorem queryPromise_of_parse_error (r : ExecResult) (d : QueryPromise) (f msg : String)
    (h : r.stderr = "") (hp : jsonParse r.stdout = .error msg) :
    queryPromise r d f = .rejected (mkError (f ++ msg)) := by
  simp [queryPromise, (truthy_string_false_iff r.stderr).mpr h, hp]

theorem queryPromise_of_parsed (r : ExecResult) (d : QueryPromise) (f : String) (v : Json)
    (h : r.stderr = "") (hp : jsonParse r.stdout = .ok v) :
    queryPromise r d f = .resolved v := by
  simp [queryPromise, (truthy_string_false_iff r.stderr).mpr h, hp]

theorem queryPromise_resolved (r : ExecResult) (d : QueryPromise) (f : String) (v : Json)
    (hd : ∀ w, d ≠ .resolved w) (h : queryPromise r d f = .resolved v) :
    r.stderr = "" ∧ jsonParse r.stdout = .ok v := by
  by_cases hs : r.stderr = ""
  · refine ⟨hs, ?_⟩
    cases hp : jsonParse r.stdout with
    | ok w =>
      rw [queryPromise_of_parsed r d f w hs hp] at h
      simp only [QueryPromise.resolved.injEq] at h
      rw [h]
    | error msg =>
      rw [queryPromise_of_parse_error r d f msg hs hp] at h
      exact absurd h (by simp)
  · rw [queryPromise_of_diagnostic r d f hs] at h
    exact absurd h (hd v)

theorem parse_message_isParseError (what msg : String) :
    IsParseError (mkError ("Error parsing network " ++ what ++ msg)) := by
  simp [IsParseError, mkError, String.data_append, List.isPrefixOf]

theorem retrieving_not_parseError (what : String) :
    ¬ IsParseError (mkError ("Error retrieving network " ++ what)) := by
  simp [IsParseError, mkError, String.data_append, List.isPrefixOf]

theorem device_not_parseError (n : String) :
    ¬ IsParseError (mkError ("Cannot find device " ++ n)) := by
  simp [IsParseError, mkError, String.data_append, List.isPrefixOf]

/-- C21: for `addr.show`, `link.show` and `neigh.show`, when standard error is
empty and `JSON.parse` fails on standard output, the promise rejects with `Error
parsing network interfaces: `, `Error parsing network links: ` or `Error parsing
network neighbors: ` followed by the parser's message; when standard error is not
empty, the rejection's message does not begin `Error parsing network `, whatever
standard output holds. -/
theorem query_parse_error (tool : Tool) (n : String) :
    (∀ msg, (tool (addrShowCommand n)).stderr = "" →
      jsonParse (tool (addrShowCommand n)).stdout = .error msg →
      (Addresses.show tool (.string n)).promise
        = .rejected (mkError ("Error parsing network interfaces: " ++ msg))) ∧
    (∀ msg, (tool "ip -j link show").stderr = "" →
      jsonParse (tool "ip -j link show").stdout = .error msg →
      (Link.show tool).promise
        = .rejected (mkError ("Error parsing network links: " ++ msg))) ∧
    (∀ msg, (tool (neighShowCommand n)).stderr = "" →
      jsonParse (tool (neighShowCommand n)).stdout = .error msg →
      (Neighbors.show tool (.string n)).promise
        = .rejected (mkError ("Error parsing network neighbors: " ++ msg))) ∧
    ((tool (addrShowCommand n)).stderr ≠ "" →
      ∃ e, (Addresses.show tool (.string n)).promise = .rejected e ∧ ¬ IsParseError e) ∧
    ((tool "ip -j link show").stderr ≠ "" →
      ∃ e, (Link.show tool).promise = .rejected e ∧ ¬ IsParseError e) ∧
    ((tool (neighShowCommand n)).stderr ≠ "" →
      ∃ e, (Neighbors.show tool (.string n)).promise = .rejected e ∧ ¬ IsParseError e) := by
  refine ⟨?_, ?_, ?_, ?_, ?_, ?_⟩
  · intro msg hs hp
    rw [addr_show_string]
    exact queryPromise_of_parse_error _ _ _ msg hs hp
  · intro msg hs hp
    rw [link_show_eq]
    exact queryPromise_of_parse_error _ _ _ msg hs hp
  · intro msg hs hp
    rw [neigh_show_string]
    exact queryPromise_of_parse_error _ _ _ msg hs hp
  · intro hs
    rw [addr_show_string]
    simp only [queryPromise_of_diagnostic _ _ _ hs]
    split_ifs
    · exact ⟨_, rfl, device_not_parseError n⟩
    · exact ⟨_, rfl, by
        simpa [String.append_assoc] using retrieving_not_parseError
          ("interfaces: " ++ (tool (addrShowCommand n)).stderr)⟩
  · intro hs
    rw [link_show_eq]
    simp only [queryPromise_of_diagnostic _ _ _ hs]
    exact ⟨_, rfl, by
      simpa [String.append_assoc] using retrieving_not_parseError
        ("links: " ++ (tool "ip -j link show").stderr)⟩
  · intro hs
    rw [neigh_show_string]
    simp only [queryPromise_of_diagnostic _ _ _ hs]
    exact ⟨_, rfl, by
      simpa [String.append_assoc] using retrieving_not_parseError
        ("neighbors: " ++ (tool (neighShowCommand n)).stderr)⟩

/-- C21 at standard output `not json`: with empty standard error `addr.show`
rejects with the parse error, and with the diagnostic `boom` `link.show` rejects
with a message that is not that of a parse error. -/
theorem query_parse_error_witness :
    (Addresses.show (fun _ => ⟨none, "not json", ""⟩) (.string "eth0")).promise
      = .rejected (mkError ("Error parsing network interfaces: " ++ "Unexpected token in JSON")) ∧
    (∃ e, (Link.show (fun _ => ⟨none, "not json", "boom"⟩)).promise = .rejected e ∧
      ¬ IsParseError e) :=
  ⟨(query_parse_error (fun _ => ⟨none, "not json", ""⟩) "eth0").1 _ (by rfl) (by rfl),
   (query_parse_error (fun _ => ⟨none, "not json", "boom"⟩) "eth0").2.2.2.2.1 (by decide)⟩

/-- C22 (as amended): whenever `addr.show`, `link.show` or `neigh.show` resolves,
standard error was empty and the resolved value is what `JSON.parse` returns for
standard output, unchanged. -/
theorem query_resolves_with_parsed_output (tool : Tool) (n : String) :
    (∀ v, (Addresses.show tool (.string n)).promise = .resolved v →
      (tool (addrShowCommand n)).stderr = "" ∧
      jsonParse (tool (addrShowCommand n)).stdout = .ok v) ∧
    (∀ v, (Link.show tool).promise = .resolved v →
      (tool "ip -j link show").stderr = "" ∧
      jsonParse (tool "ip -j link show").stdout = .ok v) ∧
    (∀ v, (Neighbors.show tool (.string n)).promise = .resolved v →
      (tool (neighShowCommand n)).stderr = "" ∧
      jsonParse (tool (neighShowCommand n)).stdout = .ok v) := by
  refine ⟨?_, ?_, ?_⟩
  · intro v h
    rw [addr_show_string] at h
    refine queryPromise_resolved _ _ _ v ?_ h
    intro w
    split_ifs <;> simp
  · intro v h
    rw [link_show_eq] at h
    exact queryPromise_resolved _ _ _ v (fun w => by simp) h
  · intro v h
    rw [neigh_show_string] at h
    exact queryPromise_resolved _ _ _ v (fun w => by simp) h

/-- C22 at standard output `[]`: `addr.show` resolves with the empty array, which
is what `JSON.parse` returns. -/
theorem query_resolves_with_parsed_output_witness :
    ((fun _ => ⟨none, "[]", ""⟩ : Tool) (addrShowCommand "eth0")).stderr = "" ∧
    jsonParse ((fun _ => ⟨none, "[]", ""⟩ : Tool) (addrShowCommand "eth0")).stdout
      = .ok (.array []) :=
  (query_resolves_with_parsed_output (fun _ => ⟨none, "[]", ""⟩) "eth0").1 (.array [])
    (by rfl)

/-- C22 (counterexample): with standard output `{}`, `null` and `5`, all valid
JSON, the three queries resolve with an object, with null and with a number, none
of them an array. -/
theorem query_resolves_non_array :
    (Addresses.show (fun _ => ⟨none, "\x7b\x7d", ""⟩) .undefined).promise
      = .resolved (.object []) ∧
    (Link.show (fun _ => ⟨none, "null", ""⟩)).promise = .resolved .null ∧
    (Neighbors.show (fun _ => ⟨none, "5", ""⟩) .undefined).promise
      = .resolved (.number ⟨5, 0⟩) :=
  ⟨rfl, rfl, rfl⟩

/-! ## The command lines -/

/-- C23: for inputs that pass validation, each address and link setter hands the
tool exactly one command line, the template with the parameters put in as they
are. -/
theorem setter_commands (tool : Tool) (n m cidr mac : String) (mtu : JSValue) :
    (∀ v, isValidCIDR (.string cidr) = .ok v → v.truthy = true →
      (Addresses.add tool (.string n) (.string cidr)).commands
        = ["ip address add " ++ cidr ++ " dev " ++ n] ∧
      (Addresses.remove tool (.string n) (.string cidr)).commands
        = ["ip address del " ++ cidr ++ " dev " ++ n]) ∧
    (Addresses.flush tool (.string n)).commands = ["ip address flush dev " ++ n] ∧
    (∀ state, state = "up" ∨ state = "down" →
      (Link.setState tool (.string n) (.string state)).commands
        = ["ip link set " ++ n ++ " " ++ state]) ∧
    ((isValidMTU mtu).truthy = true →
      (Link.setMTU tool (.string n) mtu).commands
        = ["ip link set " ++ n ++ " mtu " ++ mtu.toStr]) ∧
    (Link.rename tool (.string n) (.string m)).commands
      = ["ip link set dev " ++ n ++ " name " ++ m] ∧
    (isValidMACAddress (.string mac) = .bool true →
      (Link.setMac tool (.string n) (.string mac)).commands
        = ["ip link set dev " ++ n ++ " address " ++ mac]) := by
  refine ⟨?_, ?_, ?_, ?_, rfl, fun _ => rfl⟩
  · intro v hv ht
    constructor
    · simp only [Addresses.add, hv, ht, toStr_string, Bool.not_true, Bool.false_eq_true,
        if_false]
      split_ifs <;> rfl
    · simp only [Addresses.remove, hv, ht, toStr_string, Bool.not_true, Bool.false_eq_true,
        if_false]
      split_ifs <;> rfl
  · simp only [Addresses.flush, toStr_string]
    split_ifs <;> rfl
  · intro state hs
    rcases hs with rfl | rfl <;> simp [Link.setState, toStr_string]
  · intro ht
    simp [Link.setMTU, ht, toStr_string]

/-- C23 at `172.16.17.1/32` on `eth0`, an MTU of 1500 and the address
`00:11:22:33:44:55`; and at the cidr `1.2.3.4/32.000000000000001`, whose length has
the Number value 32, and the MTU `5e-324`, the least number above 0. -/
theorem setter_commands_witness :
    ((Addresses.add (fun _ => ⟨none, "", ""⟩) (.string "eth0")
        (.string "172.16.17.1/32")).commands = ["ip address add 172.16.17.1/32 dev eth0"] ∧
     (Addresses.remove (fun _ => ⟨none, "", ""⟩) (.string "eth0")
        (.string "172.16.17.1/32")).commands = ["ip address del 172.16.17.1/32 dev eth0"]) ∧
    (Link.setMTU (fun _ => ⟨none, "", ""⟩) (.string "eth0")
        (.number (JSNumber.ofNat 1500))).commands = ["ip link set eth0 mtu 1500"] ∧
    (Link.setMac (fun _ => ⟨none, "", ""⟩) (.string "eth0")
        (.string "00:11:22:33:44:55")).commands
      = ["ip link set dev eth0 address 00:11:22:33:44:55"] ∧
    ((Addresses.add (fun _ => ⟨none, "", ""⟩) (.string "eth0")
        (.string "1.2.3.4/32.000000000000001")).commands
      = ["ip address add 1.2.3.4/32.000000000000001 dev eth0"] ∧
     (Addresses.remove (fun _ => ⟨none, "", ""⟩) (.string "eth0")
        (.string "1.2.3.4/32.000000000000001")).commands
      = ["ip address del 1.2.3.4/32.000000000000001 dev eth0"]) ∧
    (Link.setMTU (fun _ => ⟨none, "", ""⟩) (.string "eth0") (.string "5e-324")).commands
      = ["ip link set eth0 mtu 5e-324"] :=
  ⟨(setter_commands (fun _ => ⟨none, "", ""⟩) "eth0" "eth1" "172.16.17.1/32"
      "00:11:22:33:44:55" (.number (JSNumber.ofNat 1500))).1 (.bool true) (by rfl) (by rfl),
   (setter_commands (fun _ => ⟨none, "", ""⟩) "eth0" "eth1" "172.16.17.1/32"
      "00:11:22:33:44:55" (.number (JSNumber.ofNat 1500))).2.2.2.1 (by decide),
   (setter_commands (fun _ => ⟨none, "", ""⟩) "eth0" "eth1" "172.16.17.1/32"
      "00:11:22:33:44:55" (.number (JSNumber.ofNat 1500))).2.2.2.2.2 (by decide),
   (setter_commands (fun _ => ⟨none, "", ""⟩) "eth0" "eth1" "1.2.3.4/32.000000000000001"
      "00:11:22:33:44:55" (.string "5e-324")).1 (.bool true) (by rfl) (by rfl),
   (setter_commands (fun _ => ⟨none, "", ""⟩) "eth0" "eth1" "1.2.3.4/32.000000000000001"
      "00:11:22:33:44:55" (.string "5e-324")).2.2.2.1 (by decide!)⟩

theorem includes_dash_j (rest : String) : includes ("ip -j " ++ rest) "-j" = true := by
  simp [includes, String.data_append, List.tails, List.isPrefixOf]

/-- C24: with no name or the empty name, `addr.show` issues `ip -j address`,
`neigh.show` issues `ip -j neigh show` and `neigh.flush` issues `ip neigh flush
all`; with a non-empty name `n` they issue `ip -j address show ` + trim(`n`),
`ip -j neigh show dev ` + trim(`n`) and `ip neigh flush dev ` + `n`; `link.show`
issues `ip -j link show`; every command of a query holds `-j`. -/
theorem scoped_commands (tool : Tool) (n : String) :
    ((Addresses.show tool .undefined).commands = ["ip -j address"] ∧
     (Addresses.show tool (.string "")).commands = ["ip -j address"] ∧
     (Neighbors.show tool .undefined).commands = ["ip -j neigh show"] ∧
     (Neighbors.show tool (.string "")).commands = ["ip -j neigh show"] ∧
     (Neighbors.flush tool .undefined).commands = ["ip neigh flush all"] ∧
     (Neighbors.flush tool (.string "")).commands = ["ip neigh flush all"]) ∧
    (n ≠ "" →
      (Addresses.show tool (.string n)).commands
        = ["ip -j address show " ++ String.mk (trim n.data)] ∧
      (Neighbors.show tool (.string n)).commands
        = ["ip -j neigh show dev " ++ String.mk (trim n.data)] ∧
      (Neighbors.flush tool (.string n)).commands = ["ip neigh flush dev " ++ n]) ∧
    (Link.show tool).commands = ["ip -j link show"] ∧
    (∀ cmd, cmd ∈ (Addresses.show tool (.string n)).commands ++ (Link.show tool).commands ++
        (Neighbors.show tool (.string n)).commands → includes cmd "-j" = true) := by
  have ha := addr_show_string tool ""
  have hn := neigh_show_string tool ""
  have hau : Addresses.show tool .undefined = Addresses.show tool (.string "") := rfl
  have hnu : Neighbors.show tool .undefined = Neighbors.show tool (.string "") := rfl
  refine ⟨⟨?_, ?_, ?_, ?_, rfl, rfl⟩, ?_, ?_, ?_⟩
  · rw [hau, ha]; rfl
  · rw [ha]; rfl
  · rw [hnu, hn]; rfl
  · rw [hn]; rfl
  · intro hne
    refine ⟨?_, ?_, ?_⟩
    · rw [addr_show_string]; simp [addrShowCommand, hne]
    · rw [neigh_show_string]; simp [neighShowCommand, hne]
    · have ht : (JSValue.string n).truthy = true := (truthy_string_iff n).mpr hne
      simp [Neighbors.flush, Neighbors.flushCommand, withDefault, ht, toStr_string]
  · rw [link_show_eq]
  · intro cmd hcmd
    rw [addr_show_string, neigh_show_string, link_show_eq] at hcmd
    simp only [List.mem_append, List.mem_singleton] at hcmd
    rcases hcmd with (rfl | rfl) | rfl
    · unfold addrShowCommand
      split_ifs
      · exact includes_dash_j ("address show " ++ String.mk (trim n.data))
      · exact includes_dash_j "address"
    · exact includes_dash_j "link show"
    · unfold neighShowCommand
      split_ifs
      · exact includes_dash_j ("neigh show dev " ++ String.mk (trim n.data))
      · exact includes_dash_j "neigh show"

/-- C24 at the name ` eth0 `, written with a blank on each side. -/
theorem scoped_commands_witness :
    (Addresses.show (fun _ => ⟨none, "[]", ""⟩) (.string " eth0 ")).commands
      = ["ip -j address show eth0"] ∧
    (Neighbors.show (fun _ => ⟨none, "[]", ""⟩) (.string " eth0 ")).commands
      = ["ip -j neigh show dev eth0"] ∧
    (Neighbors.flush (fun _ => ⟨none, "[]", ""⟩) (.string " eth0 ")).commands
      = ["ip neigh flush dev  eth0 "] :=
  (scoped_commands (fun _ => ⟨none, "[]", ""⟩) " eth0 ").2.1 (by decide)

/-! ## Trimming of the interface name -/

theorem dropWhile_head_not (p : Char → Bool) (l : List Char) (x : Char) (xs : List Char)
    (h : l.dropWhile p = x :: xs) : p x = false := by
  induction l with
  | nil => simp at h
  | cons c cs ih =>
    by_cases hc : p c = true
    · rw [List.dropWhile_cons_of_pos hc] at h
      exact ih h
    · rw [List.dropWhile_cons_of_neg hc] at h
      simp only [List.cons.injEq] at h
      rw [← h.1]
      simpa using hc

theorem trim_eq_rdropWhile (l : List Char) :
    trim l = (l.dropWhile isWhiteSpace).rdropWhile isWhiteSpace := rfl

theorem trim_idempotent (l : List Char) : trim (trim l) = trim l := by
  have hpre : trim l <+: l.dropWhile isWhiteSpace := by
    rw [trim_eq_rdropWhile]; exact List.rdropWhile_prefix _ _
  have hdrop : (trim l).dropWhile isWhiteSpace = trim l := by
    obtain ⟨t, ht⟩ := hpre
    cases hl : trim l with
    | nil => rfl
    | cons x xs =>
      rw [hl, List.cons_append] at ht
      have hx := dropWhile_head_not isWhiteSpace l x (xs ++ t) ht.symm
      simp [List.dropWhile, hx]
  rw [trim_eq_rdropWhile (trim l), hdrop, trim_eq_rdropWhile l]
  exact List.rdropWhile_idempotent _ _

theorem addr_add_commands (tool : Tool) (n cidr : JSValue) (cmd : String)
    (h : cmd ∈ (Addresses.add tool n cidr).commands) :
    cmd = "ip address add " ++ cidr.toStr ++ " dev " ++ n.toStr := by
  revert h
  unfold Addresses.add
  split
  · simp
  · simp only [apply_ite Outcome.commands, ite_self]
    split_ifs <;> simp

theorem addr_remove_commands (tool : Tool) (n cidr : JSValue) (cmd : String)
    (h : cmd ∈ (Addresses.remove tool n cidr).commands) :
    cmd = "ip address del " ++ cidr.toStr ++ " dev " ++ n.toStr := by
  revert h
  unfold Addresses.remove
  split
  · simp
  · simp only [apply_ite Outcome.commands, ite_self]
    split_ifs <;> simp

theorem addr_flush_commands (tool : Tool) (n : JSValue) :
    (Addresses.flush tool n).commands = ["ip address flush dev " ++ n.toStr] := by
  unfold Addresses.flush
  simp only
  split_ifs <;> rfl

theorem link_setState_commands (tool : Tool) (n state : JSValue) (cmd : String)
    (h : cmd ∈ (Link.setState tool n state).commands) :
    cmd = "ip link set " ++ n.toStr ++ " " ++ state.toStr := by
  revert h
  unfold Link.setState
  split_ifs <;> simp

theorem link_setMTU_commands (tool : Tool) (n mtu : JSValue) (cmd : String)
    (h : cmd ∈ (Link.setMTU tool n mtu).commands) :
    cmd = "ip link set " ++ n.toStr ++ " mtu " ++ mtu.toStr := by
  revert h
  unfold Link.setMTU
  split_ifs <;> simp

/-- With `isValidIP` bound as in `neighbors.js`, `add` and `update` hand no command
line to the tool, whatever the arguments. -/
theorem neigh_mutate_no_command (verb failure : String) (tool : Tool)
    (ip mac n type : JSValue) :
    (Neighbors.mutate Neighbors.isValidIP verb failure tool ip mac n type).commands = [] := by
  unfold Neighbors.mutate
  simp only [Neighbors.isValidIP]
  split_ifs <;> rfl

theorem neigh_remove_no_command (tool : Tool) (ip n : JSValue) :
    (Neighbors.remove tool ip n).commands = [] := by
  unfold Neighbors.remove
  simp only [Neighbors.isValidIP]
  split_ifs <;> rfl

/-- C25 (as amended): `addr.show` and `neigh.show` put the interface name into the
command line with its surrounding white space removed, so for a name `n` that is
not all white space a call with `n` and a call with trim(`n`) issue the same
command line.  `addr.add`, `addr.remove`, `addr.flush`, `link.setState`,
`link.setMTU`, `link.rename`, `link.setMac` and `neigh.flush` do not trim: every
command line they issue holds the name as it is given (for `neigh.flush`, a name
that is not empty).  `neigh.add`, `neigh.update` and `neigh.remove` issue no command
line, whatever the arguments. -/
theorem show_trims_name (tool : Tool) (n : String) :
    (trim n.data ≠ [] →
      (Addresses.show tool (.string n)).commands
        = ["ip -j address show " ++ String.mk (trim n.data)] ∧
      (Addresses.show tool (.string (String.mk (trim n.data)))).commands
        = (Addresses.show tool (.string n)).commands ∧
      (Neighbors.show tool (.string n)).commands
        = ["ip -j neigh show dev " ++ String.mk (trim n.data)] ∧
      (Neighbors.show tool (.string (String.mk (trim n.data)))).commands
        = (Neighbors.show tool (.string n)).commands) ∧
    (∀ (cidr : JSValue) (cmd : String),
      (cmd ∈ (Addresses.add tool (.string n) cidr).commands →
        cmd = "ip address add " ++ cidr.toStr ++ " dev " ++ n) ∧
      (cmd ∈ (Addresses.remove tool (.string n) cidr).commands →
        cmd = "ip address del " ++ cidr.toStr ++ " dev " ++ n)) ∧
    (Addresses.flush tool (.string n)).commands = ["ip address flush dev " ++ n] ∧
    (∀ (state : JSValue) (cmd : String),
      cmd ∈ (Link.setState tool (.string n) state).commands →
        cmd = "ip link set " ++ n ++ " " ++ state.toStr) ∧
    (∀ (mtu : JSValue) (cmd : String),
      cmd ∈ (Link.setMTU tool (.string n) mtu).commands →
        cmd = "ip link set " ++ n ++ " mtu " ++ mtu.toStr) ∧
    (∀ other : JSValue,
      (Link.rename tool (.string n) other).commands
        = ["ip link set dev " ++ n ++ " name " ++ other.toStr] ∧
      (Link.rename tool other (.string n)).commands
        = ["ip link set dev " ++ other.toStr ++ " name " ++ n]) ∧
    (∀ mac : JSValue,
      (Link.setMac tool (.string n) mac).commands
        = ["ip link set dev " ++ n ++ " address " ++ mac.toStr]) ∧
    (n ≠ "" → (Neighbors.flush tool (.string n)).commands = ["ip neigh flush dev " ++ n]) ∧
    (∀ ip mac type : JSValue,
      (Neighbors.add tool ip mac (.string n) type).commands = [] ∧
      (Neighbors.update tool ip mac (.string n) type).commands = [] ∧
      (Neighbors.remove tool ip (.string n)).commands = []) := by
  refine ⟨?_, ?_, addr_flush_commands tool (.string n), ?_, ?_, fun _ => ⟨rfl, rfl⟩,
    fun _ => rfl, ?_, ?_⟩
  · intro hn
    have hne : n ≠ "" := by
      rintro rfl
      exact hn rfl
    have hte : String.mk (trim n.data) ≠ "" := fun h =>
      hn (by simpa using congrArg String.data h)
    have ha : addrShowCommand n = "ip -j address show " ++ String.mk (trim n.data) := by
      simp [addrShowCommand, hne]
    have hb : neighShowCommand n = "ip -j neigh show dev " ++ String.mk (trim n.data) := by
      simp [neighShowCommand, hne]
    have ha' : addrShowCommand (String.mk (trim n.data)) = addrShowCommand n := by
      rw [ha]
      simp [addrShowCommand, hte, trim_idempotent]
    have hb' : neighShowCommand (String.mk (trim n.data)) = neighShowCommand n := by
      rw [hb]
      simp [neighShowCommand, hte, trim_idempotent]
    refine ⟨?_, ?_, ?_, ?_⟩
    · rw [addr_show_string, ha]
    · rw [addr_show_string, addr_show_string, ha']
    · rw [neigh_show_string, hb]
    · rw [neigh_show_string, neigh_show_string, hb']
  · intro cidr cmd
    exact ⟨addr_add_commands tool (.string n) cidr cmd,
      addr_remove_commands tool (.string n) cidr cmd⟩
  · intro state cmd
    exact link_setState_commands tool (.string n) state cmd
  · intro mtu cmd
    exact link_setMTU_commands tool (.string n) mtu cmd
  · intro hne
    have ht : (JSValue.string n).truthy = true := (truthy_string_iff n).mpr hne
    simp [Neighbors.flush, Neighbors.flushCommand, withDefault, ht, toStr_string]
  · intro ip mac type
    exact ⟨neigh_mutate_no_command _ _ tool ip mac (.string n) type,
      neigh_mutate_no_command _ _ tool ip mac (.string n) type,
      neigh_remove_no_command tool ip (.string n)⟩

/-- C25 at the name ` eth0 `: the two queries issue the command of `eth0`, and the
command lines of `addr.add`, `addr.flush`, `link.rename` and `neigh.flush` hold the
name with its blanks; `neigh.add` with valid arguments issues none. -/
theorem show_trims_name_witness :
    ((Addresses.show (fun _ => ⟨none, "[]", ""⟩) (.string " eth0 ")).commands
        = ["ip -j address show " ++ String.mk (trim " eth0 ".data)] ∧
      (Addresses.show (fun _ => ⟨none, "[]", ""⟩)
          (.string (String.mk (trim " eth0 ".data)))).commands
        = (Addresses.show (fun _ => ⟨none, "[]", ""⟩) (.string " eth0 ")).commands ∧
      (Neighbors.show (fun _ => ⟨none, "[]", ""⟩) (.string " eth0 ")).commands
        = ["ip -j neigh show dev " ++ String.mk (trim " eth0 ".data)] ∧
      (Neighbors.show (fun _ => ⟨none, "[]", ""⟩)
          (.string (String.mk (trim " eth0 ".data)))).commands
        = (Neighbors.show (fun _ => ⟨none, "[]", ""⟩) (.string " eth0 ")).commands) ∧
    "ip address add 10.0.0.1/24 dev  eth0 "
      = "ip address add " ++ (JSValue.string "10.0.0.1/24").toStr ++ " dev " ++ " eth0 " ∧
    (Addresses.flush (fun _ => ⟨none, "[]", ""⟩) (.string " eth0 ")).commands
      = ["ip address flush dev " ++ " eth0 "] ∧
    (Link.rename (fun _ => ⟨none, "[]", ""⟩) (.string " eth0 ") (.string "eth1")).commands
      = ["ip link set dev " ++ " eth0 " ++ " name " ++ (JSValue.string "eth1").toStr] ∧
    (Neighbors.flush (fun _ => ⟨none, "[]", ""⟩) (.string " eth0 ")).commands
      = ["ip neigh flush dev " ++ " eth0 "] ∧
    (Neighbors.add (fun _ => ⟨none, "[]", ""⟩) (.string "10.0.0.2")
        (.string "00:11:22:33:44:55") (.string " eth0 ") (.string "permanent")).commands = [] :=
  ⟨(show_trims_name (fun _ => ⟨none, "[]", ""⟩) " eth0 ").1 (by decide),
   ((show_trims_name (fun _ => ⟨none, "[]", ""⟩) " eth0 ").2.1 (.string "10.0.0.1/24")
      "ip address add 10.0.0.1/24 dev  eth0 ").1 (by decide),
   (show_trims_name (fun _ => ⟨none, "[]", ""⟩) " eth0 ").2.2.1,
   ((show_trims_name (fun _ => ⟨none, "[]", ""⟩) " eth0 ").2.2.2.2.2.1 (.string "eth1")).1,
   (show_trims_name (fun _ => ⟨none, "[]", ""⟩) " eth0 ").2.2.2.2.2.2.2.1 (by decide),
   ((show_trims_name (fun _ => ⟨none, "[]", ""⟩) " eth0 ").2.2.2.2.2.2.2.2 (.string "10.0.0.2")
      (.string "00:11:22:33:44:55") (.string "permanent")).1⟩

/-- C25 (counterexample): `addr.add`, `addr.flush`, `link.setState` and
`neigh.flush` put the name ` eth0 ` into the command line as it is, white space
included, so the command differs from that for `eth0`; and for the name of one
blank `addr.show` issues `ip -j address show ` while for its trimmed form, the
empty name, it issues `ip -j address`. -/
theorem setters_do_not_trim_name :
    (Addresses.add (fun _ => ⟨none, "", ""⟩) (.string " eth0 ")
        (.string "10.0.0.1/24")).commands = ["ip address add 10.0.0.1/24 dev  eth0 "] ∧
    (Addresses.add (fun _ => ⟨none, "", ""⟩) (.string "eth0")
        (.string "10.0.0.1/24")).commands = ["ip address add 10.0.0.1/24 dev eth0"] ∧
    (Addresses.flush (fun _ => ⟨none, "", ""⟩) (.string " eth0 ")).commands
      = ["ip address flush dev  eth0 "] ∧
    (Link.setState (fun _ => ⟨none, "", ""⟩) (.string " eth0 ") (.string "up")).commands
      = ["ip link set  eth0  up"] ∧
    (Neighbors.flush (fun _ => ⟨none, "", ""⟩) (.string " eth0 ")).commands
      = ["ip neigh flush dev  eth0 "] ∧
    (Addresses.show (fun _ => ⟨none, "[]", ""⟩) (.string " ")).commands
      = ["ip -j address show "] ∧
    (Addresses.show (fun _ => ⟨none, "[]", ""⟩) (.string (String.mk (trim " ".data)))).commands
      = ["ip -j address"] := by
  refine ⟨by decide, by decide, by decide, by decide, by decide, by rfl, by rfl⟩

/-! ## How the link setters settle -/

theorem link_settle_pending (r : ExecResult) (device : String) (failure : String) :
    Link.settle .pending r (.string device) failure = linkSettled r device failure := by
  unfold Link.settle linkSettled
  simp only [toStr_string]
  by_cases hs : r.stderr = ""
  · have ht : (JSValue.string r.stderr).truthy = false := (truthy_string_false_iff _).mpr hs
    simp only [ht, Bool.false_eq_true, if_false, hs, if_true]
    rfl
  · have ht : (JSValue.string r.stderr).truthy = true := (truthy_string_iff _).mpr hs
    simp only [ht, hs, if_true, if_false]
    split_ifs <;> rfl

/-- C26: for inputs that pass validation, `link.setState`, `link.setMTU`,
`link.rename` and `link.setMac` resolve with no value exactly when standard error
is empty; on a diagnostic `e` the promise is rejected, the later `resolve()` having
no effect, with `Cannot find device ` and the name (the old name for `rename`)
when `e` contains `Cannot find device`, and with the operation's own words followed
by `e` otherwise. -/
theorem link_setters_settle (tool : Tool) (n m mac : String) (mtu : JSValue) :
    (∀ state, state = "up" ∨ state = "down" →
      (Link.setState tool (.string n) (.string state)).promise
        = linkSettled (tool ("ip link set " ++ n ++ " " ++ state)) n
            "Error setting link state: ") ∧
    ((isValidMTU mtu).truthy = true →
      (Link.setMTU tool (.string n) mtu).promise
        = linkSettled (tool ("ip link set " ++ n ++ " mtu " ++ mtu.toStr)) n
            "Error setting MTU: ") ∧
    (Link.rename tool (.string n) (.string m)).promise
      = linkSettled (tool ("ip link set dev " ++ n ++ " name " ++ m)) n
          "Error renaming interface: " ∧
    (isValidMACAddress (.string mac) = .bool true →
      (Link.setMac tool (.string n) (.string mac)).promise
        = linkSettled (tool ("ip link set dev " ++ n ++ " address " ++ mac)) n
            "Error setting MAC address: ") ∧
    (∀ (r : ExecResult) (device failure : String),
      (linkSettled r device failure = .resolved .undefined ↔ r.stderr = "") ∧
      (r.stderr ≠ "" → ∃ e, linkSettled r device failure = .rejected e)) := by
  refine ⟨?_, ?_, ?_, ?_, ?_⟩
  · intro state hs
    rcases hs with rfl | rfl <;>
      simp [Link.setState, toStr_string, link_settle_pending]
  · intro ht
    simp [Link.setMTU, ht, toStr_string, link_settle_pending]
  · simp [Link.rename, toStr_string, link_settle_pending]
  · intro hm
    simp [Link.setMac, hm, JSValue.truthy, toStr_string, link_settle_pending]
  · intro r device failure
    by_cases hs : r.stderr = ""
    · simp [linkSettled, hs]
    · simp [linkSettled, hs]

/-- C26 at the diagnostic `Cannot find device "eth9"` for `rename`, and at another
diagnostic for `setMac`. -/
theorem link_setters_settle_witness :
    (Link.rename (fun _ => ⟨none, "", "Cannot find device \"eth9\"\n"⟩)
        (.string "eth9") (.string "eth1")).promise
      = .rejected (mkError "Cannot find device eth9") ∧
    (Link.setMac (fun _ => ⟨none, "", "RTNETLINK answers: Operation not permitted\n"⟩)
        (.string "eth0") (.string "00:11:22:33:44:55")).promise
      = .rejected (mkError
          "Error setting MAC address: RTNETLINK answers: Operation not permitted\n") ∧
    (Link.setState (fun _ => ⟨none, "", ""⟩) (.string "eth0") (.string "up")).promise
      = .resolved .undefined :=
  ⟨(link_setters_settle (fun _ => ⟨none, "", "Cannot find device \"eth9\"\n"⟩)
      "eth9" "eth1" "00:11:22:33:44:55" (.number (JSNumber.ofNat 1500))).2.2.1,
   (link_setters_settle (fun _ => ⟨none, "", "RTNETLINK answers: Operation not permitted\n"⟩)
      "eth0" "eth1" "00:11:22:33:44:55" (.number (JSNumber.ofNat 1500))).2.2.2.1 (by decide),
   (link_setters_settle (fun _ => ⟨none, "", ""⟩)
      "eth0" "eth1" "00:11:22:33:44:55" (.number (JSNumber.ofNat 1500))).1 "up" (Or.inl rfl)⟩

/-! ## The CIDR as a token of the command line -/

/-- C27 (the code at the failing input): `isValidCIDR` accepts `1.2.3.4/24/;reboot`,
which holds two `/` and a `;`, and `1.2.3.4/ 8`, which holds a blank; `addr.add`
puts the first into the command line as it is. -/
theorem isValidCIDR_accepts_shell_text :
    isValidCIDR (.string "1.2.3.4/24/;reboot") = .ok (.bool true) ∧
    isValidCIDR (.string "1.2.3.4/ 8") = .ok (.bool true) ∧
    (Addresses.add (fun _ => ⟨none, "", ""⟩) (.string "eth0")
        (.string "1.2.3.4/24/;reboot")).commands
      = ["ip address add 1.2.3.4/24/;reboot dev eth0"] ∧
    (Addresses.remove (fun _ => ⟨none, "", ""⟩) (.string "eth0")
        (.string "1.2.3.4/24/;reboot")).commands
      = ["ip address del 1.2.3.4/24/;reboot dev eth0"] := by
  refine ⟨rfl, rfl, by decide, by decide⟩

end IpWrapper
